import Mathlib

/-!
Verification development for the zestor typed key-value store.

The Go sources are shallowly embedded: the in-memory engine
(package gomap, file gomap.go) and the durable engine
(store/sqlite/sqlite.go) are translated to pure Lean functions over
explicit state records.  Go maps become association lists, channels
become bounded event queues with an explicit closed-accounting result,
and the SQLite table becomes an association list of rows keyed by
(kind, key).  Mutating operations return the successor state, the list
of events handed to the fan-out path, and an Except-typed result that
mirrors the Go return values.
-/

set_option autoImplicit false

namespace Zestor

/-- Errors of the store package (store.go): ErrClosed, ErrKeyNotFound,
ErrKindRequired, plus validation, codec and user-supplied transform
errors which Go passes through as plain error values. -/
inductive StoreErr where
  | errClosed
  | errKeyNotFound
  | errKindRequired
  | errValidation (msg : String)
  | errCodec
  | errUser (msg : String)
deriving DecidableEq, Repr

/-- Event types of store.go: create, update, delete. -/
inductive EventType where
  | create
  | update
  | delete
deriving DecidableEq, Repr

/-- store.Event: kind, name (the key), event type, and the object,
which is the new value for create/update and the previous value for
delete. -/
structure Event (T : Type) where
  kind : String
  name : String
  eventType : EventType
  object : T
deriving DecidableEq, Repr

/-- Association-list lookup, modelling Go map indexing. -/
def alookup {K A : Type} [DecidableEq K] : List (K × A) → K → Option A
  | [], _ => none
  | (k, a) :: rest, key => if k = key then some a else alookup rest key

/-- Association-list write, modelling Go map assignment: replace the
binding if the key is present, otherwise append it. -/
def aset {K A : Type} [DecidableEq K] : List (K × A) → K → A → List (K × A)
  | [], key, v => [(key, v)]
  | (k, a) :: rest, key, v =>
      if k = key then (key, v) :: rest else (k, a) :: aset rest key v

/-- Association-list removal, modelling Go delete(m, key). -/
def aerase {K A : Type} [DecidableEq K] : List (K × A) → K → List (K × A)
  | [], _ => []
  | (k, a) :: rest, key => if k = key then rest else (k, a) :: aerase rest key

/-- Association-list in-place update of an existing binding. -/
def amodify {K A : Type} [DecidableEq K] : List (K × A) → K → (A → A) → List (K × A)
  | [], _, _ => []
  | (k, a) :: rest, key, f =>
      if k = key then (k, f a) :: rest else (k, a) :: amodify rest key f

@[simp] theorem alookup_nil {K A : Type} [DecidableEq K] (key : K) :
    alookup ([] : List (K × A)) key = none := rfl

theorem alookup_aset_self {K A : Type} [DecidableEq K]
    (m : List (K × A)) (key : K) (v : A) : alookup (aset m key v) key = some v := by
  induction m with
  | nil => simp [aset, alookup]
  | cons p rest ih =>
    obtain ⟨k, a⟩ := p
    by_cases h : k = key
    · simp [aset, h, alookup]
    · simp [aset, h, alookup, ih]

theorem alookup_aset_ne {K A : Type} [DecidableEq K]
    (m : List (K × A)) (key key' : K) (v : A) (h : key ≠ key') :
    alookup (aset m key v) key' = alookup m key' := by
  induction m with
  | nil => simp [aset, alookup, h]
  | cons p rest ih =>
    obtain ⟨k, a⟩ := p
    by_cases hk : k = key
    · subst hk
      simp [aset, alookup, h]
    · simp [aset, hk, alookup, ih]

theorem alookup_aerase_ne {K A : Type} [DecidableEq K]
    (m : List (K × A)) (key key' : K) (h : key ≠ key') :
    alookup (aerase m key) key' = alookup m key' := by
  induction m with
  | nil => simp [aerase]
  | cons p rest ih =>
    obtain ⟨k, a⟩ := p
    by_cases hk : k = key
    · subst hk
      simp [aerase, alookup, h]
    · simp [aerase, hk, alookup, ih]

theorem alookup_eq_none_of_not_mem {K A : Type} [DecidableEq K]
    (m : List (K × A)) (key : K) (h : key ∉ m.map Prod.fst) :
    alookup m key = none := by
  induction m with
  | nil => rfl
  | cons p rest ih =>
    obtain ⟨k, a⟩ := p
    simp only [List.map_cons, List.mem_cons, not_or] at h
    have hk : k ≠ key := fun he => h.1 he.symm
    simp only [alookup, if_neg hk]
    exact ih h.2

theorem alookup_aerase_self_of_nodup {K A : Type} [DecidableEq K]
    (m : List (K × A)) (key : K) (hnd : (m.map Prod.fst).Nodup) :
    alookup (aerase m key) key = none := by
  induction m with
  | nil => simp [aerase]
  | cons p rest ih =>
    obtain ⟨k, a⟩ := p
    simp only [List.map_cons, List.nodup_cons] at hnd
    by_cases hk : k = key
    · subst hk
      simp only [aerase, if_pos rfl]
      exact alookup_eq_none_of_not_mem rest k hnd.1
    · simp only [aerase, if_neg hk, alookup, if_neg hk]
      exact ih hnd.2

theorem alookup_amodify {K A : Type} [DecidableEq K]
    (m : List (K × A)) (key : K) (f : A → A) :
    alookup (amodify m key f) key = (alookup m key).map f := by
  induction m with
  | nil => simp [amodify]
  | cons p rest ih =>
    obtain ⟨k, a⟩ := p
    by_cases hk : k = key
    · simp [amodify, hk, alookup]
    · simp [amodify, hk, alookup, ih]

theorem alookup_amodify_ne {K A : Type} [DecidableEq K]
    (m : List (K × A)) (key key' : K) (f : A → A) (h : key ≠ key') :
    alookup (amodify m key f) key' = alookup m key' := by
  induction m with
  | nil => simp [amodify]
  | cons p rest ih =>
    obtain ⟨k, a⟩ := p
    by_cases hk : k = key
    · subst hk
      simp [amodify, alookup, h]
    · simp [amodify, hk, alookup, ih]

theorem alookup_mapVal {K A B : Type} [DecidableEq K]
    (m : List (K × A)) (f : A → B) (key : K) :
    alookup (m.map (fun p => (p.1, f p.2))) key = (alookup m key).map f := by
  induction m with
  | nil => simp
  | cons p rest ih =>
    obtain ⟨k, a⟩ := p
    by_cases hk : k = key
    · simp [alookup, hk]
    · simp [alookup, hk, ih]

/-- A watcher subscription: the delivery channel is modelled as the
queue of buffered events plus its capacity; eventTypes is the optional
event-type filter (none means all types). -/
structure Watcher (T : Type) where
  ch : List (Event T)
  cap : Nat
  eventTypes : Option (List EventType)
deriving DecidableEq, Repr

/-- Filter check shared by the publish paths of both engines: a nil
filter accepts every event type, otherwise membership is required. -/
def Watcher.accepts {T : Type} (w : Watcher T) (et : EventType) : Bool :=
  match w.eventTypes with
  | none => true
  | some l => l.contains et

/-- Non-blocking channel send: the event is appended when the buffer
has room and silently dropped otherwise. -/
def trySend {T : Type} (w : Watcher T) (ev : Event T) : Watcher T :=
  if w.ch.length < w.cap then { w with ch := w.ch ++ [ev] } else w

/-- Delivery of one event to one watcher: filter check then
non-blocking send. -/
def Watcher.deliver {T : Type} (w : Watcher T) (ev : Event T) : Watcher T :=
  if w.accepts ev.eventType then trySend w ev else w

/-- Fan-out of one event to every watcher registered on a kind. -/
def deliverAll {T : Type} (ws : List (Nat × Watcher T)) (ev : Event T) :
    List (Nat × Watcher T) :=
  ws.map (fun p => (p.1, p.2.deliver ev))

/-- Fan-out of a list of events, in order. -/
def deliverList {T : Type} (ws : List (Nat × Watcher T)) (evs : List (Event T)) :
    List (Nat × Watcher T) :=
  evs.foldl deliverAll ws

/-- store.WatchCfg after folding the WatchOption values: initial
replay flag, optional event-type filter, buffer size (0 means use the
default). -/
structure WatchCfg where
  initial : Bool
  eventTypes : Option (List EventType)
  bufferSize : Nat

/-- store.DefaultWatchBufferSize. -/
def defaultWatchBufferSize : Nat := 128

/-- The replay condition computed by both Watch implementations:
sendInitial is true when the filter is absent or contains the create
type. -/
def acceptsInitial (o : Option (List EventType)) : Bool :=
  match o with
  | none => true
  | some l => l.contains EventType.create

/-- gomap memStore state: nested kind/key maps, per-kind validation
functions, per-kind watcher registries, the comparison function, the
closed flag and the watcher id counter. -/
structure MemStore (T : Type) where
  kinds : List (String × List (String × T))
  validationFns : List (String × (T → Option StoreErr))
  watchers : List (String × List (Nat × Watcher T))
  compareFn : T → T → Bool
  closed : Bool
  watcherID : Nat

/-- store.DefaultCompareFunc: reflect.DeepEqual, i.e. structural
equality. -/
def defaultCompareFn {T : Type} [DecidableEq T] (prev nxt : T) : Bool :=
  decide (prev = nxt)

/-- store.StoreOptions: optional comparison function and per-kind
validation functions. -/
structure StoreOptions (T : Type) where
  compareFn : Option (T → T → Bool)
  validateFns : List (String × (T → Option StoreErr))

/-- gomap.NewMemStore. -/
def newMemStore {T : Type} [DecidableEq T] (opt : StoreOptions T) : MemStore T :=
  { kinds := [], validationFns := opt.validateFns, watchers := [],
    compareFn := opt.compareFn.getD defaultCompareFn,
    closed := false, watcherID := 0 }

/-- gomap memStore.ensureKind, first statement: create the kind map
when absent. -/
def MemStore.ensureKindKinds {T : Type} (s : MemStore T) (kind : String) : MemStore T :=
  if (alookup s.kinds kind).isNone then
    { s with kinds := s.kinds ++ [(kind, [])] }
  else s

/-- gomap memStore.ensureKind: create the kind map and the kind
watcher registry when absent. -/
def MemStore.ensureKind {T : Type} (s : MemStore T) (kind : String) : MemStore T :=
  if (alookup (s.ensureKindKinds kind).watchers kind).isNone then
    { s.ensureKindKinds kind with
        watchers := (s.ensureKindKinds kind).watchers ++ [(kind, [])] }
  else s.ensureKindKinds kind

/-- Fan-out of a list of events to the watchers of one kind, as done
after releasing the lock in the gomap engine. -/
def publishList {T : Type} (s : MemStore T) (kind : String) (evs : List (Event T)) :
    MemStore T :=
  { s with watchers := amodify s.watchers kind (fun ws => deliverList ws evs) }

/-- Core of gomap memStore.Set after the closed check and validation:
read the previous value (the zero value when absent), overwrite, then
either suppress (compareFn true) or classify and publish. -/
def memSetCore {T : Type} [Inhabited T] (s : MemStore T) (kind key : String) (value : T) :
    MemStore T × List (Event T) × Except StoreErr Bool :=
  let m := (alookup s.kinds kind).getD []
  let prevOpt := alookup m key
  let existed := prevOpt.isSome
  let prev := prevOpt.getD default
  let s1 := { s with kinds := aset s.kinds kind (aset m key value) }
  if s.compareFn prev value then
    (s1, [], .ok false)
  else
    let evType := if existed then EventType.update else EventType.create
    let ev : Event T := ⟨kind, key, evType, value⟩
    (publishList s1 kind [ev], [ev], .ok (!existed))

/-- gomap memStore.Set. -/
def memSet {T : Type} [Inhabited T] (s : MemStore T) (kind key : String) (value : T) :
    MemStore T × List (Event T) × Except StoreErr Bool :=
  if s.closed then (s, [], .error .errClosed)
  else
    let s1 := s.ensureKind kind
    match alookup s1.validationFns kind with
    | some fn =>
        match fn value with
        | some e => (s1, [], .error e)
        | none => memSetCore s1 kind key value
    | none => memSetCore s1 kind key value

/-- The validate-all-values-first loop of gomap memStore.SetAll. -/
def validateVals {T : Type} (fn : T → Option StoreErr) :
    List (String × T) → Option StoreErr
  | [] => none
  | (_, v) :: rest =>
      match fn v with
      | some e => some e
      | none => validateVals fn rest

/-- The write loop of gomap memStore.SetAll: classify each key as
created or updated against the evolving map, writing as it goes. -/
def memSetAllLoop {T : Type} :
    List (String × T) → List (String × T) →
    List (String × T) × List (String × T) × List (String × T)
  | m, [] => (m, [], [])
  | m, (k, v) :: rest =>
      let existed := (alookup m k).isSome
      let res := memSetAllLoop (aset m k v) rest
      if existed then (res.1, res.2.1, (k, v) :: res.2.2)
      else (res.1, (k, v) :: res.2.1, res.2.2)

/-- gomap memStore.SetAll. -/
def memSetAll {T : Type} (s : MemStore T) (kind : String) (values : List (String × T)) :
    MemStore T × List (Event T) × Except StoreErr Unit :=
  if s.closed then (s, [], .error .errClosed)
  else
    let s1 := s.ensureKind kind
    let verr :=
      match alookup s1.validationFns kind with
      | some fn => validateVals fn values
      | none => none
    match verr with
    | some e => (s1, [], .error e)
    | none =>
      let m := (alookup s1.kinds kind).getD []
      let res := memSetAllLoop m values
      let s2 := { s1 with kinds := aset s1.kinds kind res.1 }
      let evs := res.2.1.map (fun kv => (⟨kind, kv.1, .create, kv.2⟩ : Event T))
                 ++ res.2.2.map (fun kv => (⟨kind, kv.1, .update, kv.2⟩ : Event T))
      (publishList s2 kind evs, evs, .ok ())

/-- gomap memStore.Delete. -/
def memDelete {T : Type} [Inhabited T] (s : MemStore T) (kind key : String) :
    MemStore T × List (Event T) × Except StoreErr (Bool × T) :=
  if s.closed then (s, [], .error .errClosed)
  else
    let s1 := s.ensureKind kind
    let m := (alookup s1.kinds kind).getD []
    match alookup m key with
    | none => (s1, [], .ok (false, default))
    | some prev =>
      let s2 := { s1 with kinds := aset s1.kinds kind (aerase m key) }
      let ev : Event T := ⟨kind, key, .delete, prev⟩
      (publishList s2 kind [ev], [ev], .ok (true, prev))

/-- gomap memStore.SetFn: missing key fails with ErrKeyNotFound, a
transform error is passed through, otherwise the value is overwritten
and an update event is published unconditionally; the boolean result
is the literal false of the source. -/
def memSetFn {T : Type} (s : MemStore T) (kind key : String)
    (fn : T → Except StoreErr T) :
    MemStore T × List (Event T) × Except StoreErr Bool :=
  if s.closed then (s, [], .error .errClosed)
  else
    let s1 := s.ensureKind kind
    let m := (alookup s1.kinds kind).getD []
    match alookup m key with
    | none => (s1, [], .error .errKeyNotFound)
    | some prev =>
      match fn prev with
      | .error e => (s1, [], .error e)
      | .ok value =>
        let s2 := { s1 with kinds := aset s1.kinds kind (aset m key value) }
        let ev : Event T := ⟨kind, key, .update, value⟩
        (publishList s2 kind [ev], [ev], .ok false)

/-- gomap memStore.Watch: register a fresh watcher and return its id
together with the list of events the initial-replay goroutine will
send (empty when replay is off, the snapshot is empty, or sendInitial
is false). -/
def memWatch {T : Type} (s : MemStore T) (kind : String) (cfg : WatchCfg) :
    MemStore T × Except StoreErr (Nat × List (Event T)) :=
  if kind = "" then (s, .error .errKindRequired)
  else if s.closed then (s, .error .errClosed)
  else
    let s1 := s.ensureKind kind
    let bufSize := if cfg.bufferSize = 0 then defaultWatchBufferSize else cfg.bufferSize
    let id := s1.watcherID + 1
    let w : Watcher T := ⟨[], bufSize, cfg.eventTypes⟩
    let s2 := { s1 with watchers := amodify s1.watchers kind (fun ws => aset ws id w),
                        watcherID := id }
    let snap := if cfg.initial then (alookup s1.kinds kind).getD [] else []
    let replay :=
      if cfg.initial && !snap.isEmpty && acceptsInitial w.eventTypes then
        snap.map (fun kv => (⟨kind, kv.1, .create, kv.2⟩ : Event T))
      else []
    (s2, .ok (id, replay))

/-- The cancel closure returned by gomap memStore.Watch: remove the
watcher and close its channel only when it is still registered.  The
boolean reports whether a channel close was attempted. -/
def memCancel {T : Type} (s : MemStore T) (kind : String) (id : Nat) :
    MemStore T × Bool :=
  match alookup s.watchers kind with
  | none => (s, false)
  | some ws =>
    match alookup ws id with
    | none => (s, false)
    | some _ =>
      ({ s with watchers := aset s.watchers kind (aerase ws id) }, true)

/-- gomap memStore.Close: idempotent; on the first call it marks the
store closed and closes every registered watcher channel, emptying
each kind registry.  The returned list names the channels closed by
this call. -/
def memClose {T : Type} (s : MemStore T) : MemStore T × List (String × Nat) :=
  if s.closed then (s, [])
  else
    let closedChans := (s.watchers.map (fun p => p.2.map (fun q => (p.1, q.1)))).flatten
    ({ s with closed := true, watchers := s.watchers.map (fun p => (p.1, [])) },
     closedChans)

/-- gomap memStore.Get. -/
def memGet {T : Type} (s : MemStore T) (kind key : String) :
    Except StoreErr (Option T) :=
  if s.closed then .error .errClosed
  else .ok (alookup ((alookup s.kinds kind).getD []) key)

/-- gomap memStore.List with its conjunctive filter chain. -/
def memList {T : Type} (s : MemStore T) (kind : String)
    (filters : List (String → T → Bool)) : Except StoreErr (List (String × T)) :=
  if s.closed then .error .errClosed
  else .ok (((alookup s.kinds kind).getD []).filter
    (fun kv => filters.all (fun f => f kv.1 kv.2)))

/-- gomap memStore.Keys. -/
def memKeys {T : Type} (s : MemStore T) (kind : String) :
    Except StoreErr (List String) :=
  if s.closed then .error .errClosed
  else .ok (((alookup s.kinds kind).getD []).map Prod.fst)

/-- gomap memStore.Values. -/
def memValues {T : Type} (s : MemStore T) (kind : String) :
    Except StoreErr (List (String × T)) :=
  if s.closed then .error .errClosed
  else .ok ((alookup s.kinds kind).getD [])

/-- gomap memStore.Count. -/
def memCount {T : Type} (s : MemStore T) (kind : String) : Except StoreErr Nat :=
  if s.closed then .error .errClosed
  else .ok ((alookup s.kinds kind).getD []).length

/-- gomap memStore.GetAll: a deep clone of the nested maps, including
kinds that are registered but empty. -/
def memGetAll {T : Type} (s : MemStore T) :
    Except StoreErr (List (String × List (String × T))) :=
  if s.closed then .error .errClosed
  else .ok s.kinds

/-- gomap memStore.Dump: renders every kind and entry; the source
takes only the read lock and never consults the closed flag. -/
def memDump {T : Type} (sh : T → String) (s : MemStore T) : String :=
  String.join (s.kinds.map (fun p =>
    p.1 ++ ":\n" ++ String.join (p.2.map (fun kv => "  " ++ kv.1 ++ ": " ++ sh kv.2 ++ "\n"))))

/-- The codec boundary of the durable engine: serialize a value to a
byte sequence (modelled as a list of naturals) and deserialize it
back, with decoding allowed to fail. -/
structure Codec (T : Type) where
  enc : T → List Nat
  dec : List Nat → Option T

/-- One row of the zestor_kv table: value blob, version (defaults to 1
on insert), updated_at timestamp. -/
structure SqlRow where
  value : List Nat
  version : Nat
  updatedAt : Nat
deriving DecidableEq, Repr

/-- sqlite sqLiteStore state: the table rows keyed by (kind, key), the
in-process watcher registry, the id counter standing in for watcher
pointer identity, and the closed flag. -/
structure SqlStore (T : Type) where
  rows : List ((String × String) × SqlRow)
  subs : List (String × List (Nat × Watcher T))
  subID : Nat
  closed : Bool

/-- A freshly opened sqlite store after sqlite.New: empty table, empty
registry, open. -/
def newSqlStore {T : Type} : SqlStore T :=
  { rows := [], subs := [], subID := 0, closed := false }

/-- Row lookup by (kind, key), as the getQuery does. -/
def getRow {T : Type} (s : SqlStore T) (kind key : String) : Option SqlRow :=
  alookup s.rows (kind, key)

/-- sqLiteStore.publish: deliver each event to every subscriber of the
kind through the filter and the non-blocking send. -/
def sqlPublish {T : Type} (s : SqlStore T) (kind : String) (evs : List (Event T)) :
    SqlStore T :=
  { s with subs := amodify s.subs kind (fun ws => deliverList ws evs) }

/-- sqLiteStore.Set: attempt the insert; on conflict compare the
current bytes with the new bytes — equal bytes commit as a no-op,
differing bytes update value, version+1 and updated_at; the event is
published after commit. -/
def sqliteSet {T : Type} (c : Codec T) (now : Nat) (s : SqlStore T)
    (kind key : String) (value : T) :
    SqlStore T × List (Event T) × Except StoreErr Bool :=
  if s.closed then (s, [], .error .errClosed)
  else
    let enc := c.enc value
    match alookup s.rows (kind, key) with
    | none =>
      let s1 := { s with rows := aset s.rows (kind, key) ⟨enc, 1, now⟩ }
      let ev : Event T := ⟨kind, key, .create, value⟩
      (sqlPublish s1 kind [ev], [ev], .ok true)
    | some r =>
      if r.value = enc then (s, [], .ok false)
      else
        let s1 := { s with rows := aset s.rows (kind, key) ⟨enc, r.version + 1, now⟩ }
        let ev : Event T := ⟨kind, key, .update, value⟩
        (sqlPublish s1 kind [ev], [ev], .ok false)

/-- sqLiteStore.SetFn: read the current bytes inside the transaction,
abort with ErrKeyNotFound when absent, decode, apply the transform,
compare bytes; equal bytes commit as a no-op with no event, differing
bytes update the row and publish an update event after commit.  The
boolean result is the literal false of the source. -/
def sqliteSetFn {T : Type} (c : Codec T) (now : Nat) (s : SqlStore T)
    (kind key : String) (fn : T → Except StoreErr T) :
    SqlStore T × List (Event T) × Except StoreErr Bool :=
  if s.closed then (s, [], .error .errClosed)
  else
    match alookup s.rows (kind, key) with
    | none => (s, [], .error .errKeyNotFound)
    | some r =>
      match c.dec r.value with
      | none => (s, [], .error .errCodec)
      | some cur =>
        match fn cur with
        | .error e => (s, [], .error e)
        | .ok nv =>
          let newBytes := c.enc nv
          if r.value = newBytes then (s, [], .ok false)
          else
            let s1 := { s with rows := aset s.rows (kind, key) ⟨newBytes, r.version + 1, now⟩ }
            let ev : Event T := ⟨kind, key, .update, nv⟩
            (sqlPublish s1 kind [ev], [ev], .ok false)

/-- The keys of a kind currently in the table, as the pre-existence
query of SetAll and the keysQuery produce them. -/
def kindKeys {T : Type} (s : SqlStore T) (kind : String) : List String :=
  s.rows.filterMap (fun p => if p.1.1 = kind then some p.1.2 else none)

/-- The ON CONFLICT upsert of SetAll: insert with version 1, or
replace the value and bump version/updated_at only when the stored
bytes differ from the new bytes. -/
def upsertRow (rows : List ((String × String) × SqlRow)) (kind k : String)
    (enc : List Nat) (now : Nat) : List ((String × String) × SqlRow) :=
  match alookup rows (kind, k) with
  | none => aset rows (kind, k) ⟨enc, 1, now⟩
  | some r =>
    if r.value = enc then aset rows (kind, k) ⟨enc, r.version, r.updatedAt⟩
    else aset rows (kind, k) ⟨enc, r.version + 1, now⟩

/-- The per-entry loop of sqLiteStore.SetAll: marshal and upsert each
entry, classifying it as created or updated against the key set read
before the loop. -/
def sqliteSetAllLoop {T : Type} (c : Codec T) (now : Nat) (kind : String)
    (existing : List String) :
    List ((String × String) × SqlRow) → List (String × T) →
    List ((String × String) × SqlRow) × List (String × T) × List (String × T)
  | rows, [] => (rows, [], [])
  | rows, (k, v) :: rest =>
    let rows1 := upsertRow rows kind k (c.enc v) now
    let res := sqliteSetAllLoop c now kind existing rows1 rest
    if existing.contains k then (res.1, res.2.1, (k, v) :: res.2.2)
    else (res.1, (k, v) :: res.2.1, res.2.2)

/-- sqLiteStore.SetAll: one transaction that reads the pre-existing
keys, upserts every entry with the change-aware version logic, then
publishes one create event per key absent beforehand and one update
event per key present beforehand. -/
def sqliteSetAll {T : Type} (c : Codec T) (now : Nat) (s : SqlStore T)
    (kind : String) (values : List (String × T)) :
    SqlStore T × List (Event T) × Except StoreErr Unit :=
  if s.closed then (s, [], .error .errClosed)
  else
    let existing := kindKeys s kind
    let res := sqliteSetAllLoop c now kind existing s.rows values
    let s1 := { s with rows := res.1 }
    let evs := res.2.1.map (fun kv => (⟨kind, kv.1, .create, kv.2⟩ : Event T))
               ++ res.2.2.map (fun kv => (⟨kind, kv.1, .update, kv.2⟩ : Event T))
    (sqlPublish s1 kind evs, evs, .ok ())

/-- sqLiteStore.Delete: read the current bytes (absent commits nothing
and reports existed=false with no error), decode the previous value,
delete the row, then publish a delete event carrying the previous
value. -/
def sqliteDelete {T : Type} [Inhabited T] (c : Codec T) (s : SqlStore T)
    (kind key : String) :
    SqlStore T × List (Event T) × Except StoreErr (Bool × T) :=
  if s.closed then (s, [], .error .errClosed)
  else
    match alookup s.rows (kind, key) with
    | none => (s, [], .ok (false, default))
    | some r =>
      match c.dec r.value with
      | none => (s, [], .error .errCodec)
      | some prev =>
        let s1 := { s with rows := aerase s.rows (kind, key) }
        let ev : Event T := ⟨kind, key, .delete, prev⟩
        (sqlPublish s1 kind [ev], [ev], .ok (true, prev))

/-- The decoded contents of one kind, as sqLiteStore.List produces
them for the replay goroutine: all rows of the kind, decode each,
abort on the first decode failure. -/
def kindEntries {T : Type} (c : Codec T) (s : SqlStore T) (kind : String) :
    Option (List (String × T)) :=
  (s.rows.filterMap (fun p => if p.1.1 = kind then some (p.1.2, p.2.value) else none)).mapM
    (fun kb => (c.dec kb.2).map (fun v => (kb.1, v)))

/-- sqLiteStore.Watch: reject an empty kind, reject a closed store,
register a watcher, and return its id with the list of events the
initial-replay goroutine sends (empty when replay is off, sendInitial
is false, or the List call fails). -/
def sqliteWatch {T : Type} (c : Codec T) (s : SqlStore T) (kind : String)
    (cfg : WatchCfg) : SqlStore T × Except StoreErr (Nat × List (Event T)) :=
  if kind = "" then (s, .error .errKindRequired)
  else if s.closed then (s, .error .errClosed)
  else
    let bufSize := if cfg.bufferSize = 0 then defaultWatchBufferSize else cfg.bufferSize
    let id := s.subID + 1
    let w : Watcher T := ⟨[], bufSize, cfg.eventTypes⟩
    let ws := (alookup s.subs kind).getD []
    let s1 := { s with subs := aset s.subs kind (aset ws id w), subID := id }
    let replay :=
      if cfg.initial && acceptsInitial cfg.eventTypes then
        match kindEntries c s kind with
        | some entries =>
            entries.map (fun kv => (⟨kind, kv.1, .create, kv.2⟩ : Event T))
        | none => []
      else []
    (s1, .ok (id, replay))

/-- The cancel closure returned by sqLiteStore.Watch: remove the
subscription and close its channel only when still registered,
dropping the kind entry when it becomes empty.  The boolean reports
whether a channel close was attempted. -/
def sqliteCancel {T : Type} (s : SqlStore T) (kind : String) (id : Nat) :
    SqlStore T × Bool :=
  match alookup s.subs kind with
  | none => (s, false)
  | some ws =>
    match alookup ws id with
    | none => (s, false)
    | some _ =>
      let ws1 := aerase ws id
      let subs1 := if ws1.isEmpty then aerase s.subs kind else aset s.subs kind ws1
      ({ s with subs := subs1 }, true)

/-- sqLiteStore.Close: idempotent; the first call sets the closed
flag, closes every subscriber channel and resets the registry to nil.
The returned list names the channels closed by this call. -/
def sqliteClose {T : Type} (s : SqlStore T) : SqlStore T × List (String × Nat) :=
  if s.closed then (s, [])
  else
    let closedChans := (s.subs.map (fun p => p.2.map (fun q => (p.1, q.1)))).flatten
    ({ s with closed := true, subs := [] }, closedChans)

/-- sqLiteStore.Get. -/
def sqliteGet {T : Type} (c : Codec T) (s : SqlStore T) (kind key : String) :
    Except StoreErr (Option T) :=
  if s.closed then .error .errClosed
  else
    match alookup s.rows (kind, key) with
    | none => .ok none
    | some r =>
      match c.dec r.value with
      | none => .error .errCodec
      | some v => .ok (some v)

/-- sqLiteStore.List. -/
def sqliteList {T : Type} (c : Codec T) (s : SqlStore T) (kind : String)
    (filters : List (String → T → Bool)) : Except StoreErr (List (String × T)) :=
  if s.closed then .error .errClosed
  else
    match kindEntries c s kind with
    | none => .error .errCodec
    | some entries =>
        .ok (entries.filter (fun kv => filters.all (fun f => f kv.1 kv.2)))

/-- sqLiteStore.Count. -/
def sqliteCount {T : Type} (s : SqlStore T) (kind : String) : Except StoreErr Nat :=
  if s.closed then .error .errClosed
  else .ok (kindKeys s kind).length

/-- sqLiteStore.Keys. -/
def sqliteKeys {T : Type} (s : SqlStore T) (kind : String) :
    Except StoreErr (List String) :=
  if s.closed then .error .errClosed
  else .ok (kindKeys s kind)

/-- sqLiteStore.Values. -/
def sqliteValues {T : Type} (c : Codec T) (s : SqlStore T) (kind : String) :
    Except StoreErr (List (String × T)) :=
  if s.closed then .error .errClosed
  else
    match kindEntries c s kind with
    | none => .error .errCodec
    | some entries => .ok entries

/-- sqLiteStore.GetAll: decode every row of every kind. -/
def sqliteGetAll {T : Type} (c : Codec T) (s : SqlStore T) :
    Except StoreErr (List ((String × String) × T)) :=
  if s.closed then .error .errClosed
  else
    match s.rows.mapM (fun p => (c.dec p.2.value).map (fun v => (p.1, v))) with
    | none => .error .errCodec
    | some l => .ok l

/-- sqLiteStore.Dump: queries the database directly, so after Close it
returns the text of the driver error rather than any store error. -/
def sqliteDump {T : Type} (s : SqlStore T) : String :=
  if s.closed then "sql: database is closed"
  else
    String.join (s.rows.map (fun p =>
      p.1.1 ++ "/" ++ p.1.2 ++ " v" ++ toString p.2.version ++ " ("
        ++ toString p.2.value.length ++ "B) " ++ toString p.2.updatedAt ++ "\n"))

theorem deliver_none_eventTypes {T : Type} (w : Watcher T) (ev : Event T)
    (hfil : w.eventTypes = none) (hcap : w.ch.length < w.cap) :
    w.deliver ev = { w with ch := w.ch ++ [ev] } := by
  simp [Watcher.deliver, Watcher.accepts, hfil, trySend, hcap]

theorem alookup_deliverAll {T : Type} (ws : List (Nat × Watcher T)) (ev : Event T)
    (id : Nat) : alookup (deliverAll ws ev) id = (alookup ws id).map (·.deliver ev) :=
  alookup_mapVal ws (·.deliver ev) id

theorem deliverList_lookup {T : Type} (evs : List (Event T)) :
    ∀ (ws : List (Nat × Watcher T)) (id : Nat) (w : Watcher T),
    alookup ws id = some w → w.eventTypes = none →
    w.ch.length + evs.length ≤ w.cap →
    alookup (deliverList ws evs) id = some { w with ch := w.ch ++ evs } := by
  induction evs with
  | nil =>
    intro ws id w hw _ _
    simpa [deliverList] using hw
  | cons ev rest ih =>
    intro ws id w hw hfil hcap
    have hlt : w.ch.length < w.cap := by
      simp only [List.length_cons] at hcap
      omega
    have hstep : alookup (deliverAll ws ev) id = some { w with ch := w.ch ++ [ev] } := by
      rw [alookup_deliverAll, hw]
      simp [deliver_none_eventTypes w ev hfil hlt]
    have hcap2 : ({ w with ch := w.ch ++ [ev] } : Watcher T).ch.length + rest.length
        ≤ ({ w with ch := w.ch ++ [ev] } : Watcher T).cap := by
      simp only [List.length_append, List.length_cons, List.length_nil] at hcap ⊢
      omega
    have := ih (deliverAll ws ev) id { w with ch := w.ch ++ [ev] } hstep (by simp [hfil])
      hcap2
    simpa [deliverList, List.append_assoc] using this

theorem memSetAllLoop_events {T : Type} (values : List (String × T)) :
    ∀ m : List (String × T), (values.map Prod.fst).Nodup →
    (memSetAllLoop m values).2.1 = values.filter (fun kv => (alookup m kv.1).isNone)
    ∧ (memSetAllLoop m values).2.2 = values.filter (fun kv => (alookup m kv.1).isSome) := by
  induction values with
  | nil => intro m _; simp [memSetAllLoop]
  | cons kv rest ih =>
    intro m hnd
    obtain ⟨k, v⟩ := kv
    simp only [List.map_cons, List.nodup_cons] at hnd
    have hrest := ih (aset m k v) hnd.2
    have hcongr1 : rest.filter (fun kv => (alookup (aset m k v) kv.1).isNone)
        = rest.filter (fun kv => (alookup m kv.1).isNone) := by
      apply List.filter_congr
      intro x hx
      have hne : k ≠ x.1 := by
        intro he
        exact hnd.1 (List.mem_map.mpr ⟨x, hx, he.symm⟩)
      rw [alookup_aset_ne m k x.1 v hne]
    have hcongr2 : rest.filter (fun kv => (alookup (aset m k v) kv.1).isSome)
        = rest.filter (fun kv => (alookup m kv.1).isSome) := by
      apply List.filter_congr
      intro x hx
      have hne : k ≠ x.1 := by
        intro he
        exact hnd.1 (List.mem_map.mpr ⟨x, hx, he.symm⟩)
      rw [alookup_aset_ne m k x.1 v hne]
    by_cases hex : (alookup m k).isSome
    · simp only [memSetAllLoop, hex, if_true, List.filter_cons]
      have hnone : ((alookup m k).isNone : Bool) = false := by
        cases h : alookup m k <;> simp [h] at hex ⊢
      simp [hnone, hex, hrest.1, hrest.2, hcongr1, hcongr2]
    · simp only [memSetAllLoop, hex, if_false, List.filter_cons]
      have hnone : ((alookup m k).isNone : Bool) = true := by
        cases h : alookup m k <;> simp [h] at hex ⊢
      simp [hnone, hex, hrest.1, hrest.2, hcongr1, hcongr2]

theorem sqliteSetAllLoop_cons_pos {T : Type} (c : Codec T) (now : Nat) (kind : String)
    (existing : List String) (rows : List ((String × String) × SqlRow))
    (k : String) (v : T) (rest : List (String × T))
    (hex : existing.contains k = true) :
    sqliteSetAllLoop c now kind existing rows ((k, v) :: rest)
      = ((sqliteSetAllLoop c now kind existing (upsertRow rows kind k (c.enc v) now) rest).1,
         (sqliteSetAllLoop c now kind existing (upsertRow rows kind k (c.enc v) now) rest).2.1,
         (k, v) :: (sqliteSetAllLoop c now kind existing (upsertRow rows kind k (c.enc v) now) rest).2.2) := by
  simp only [sqliteSetAllLoop, hex, eq_self_iff_true, if_true]

theorem sqliteSetAllLoop_cons_neg {T : Type} (c : Codec T) (now : Nat) (kind : String)
    (existing : List String) (rows : List ((String × String) × SqlRow))
    (k : String) (v : T) (rest : List (String × T))
    (hex : existing.contains k = false) :
    sqliteSetAllLoop c now kind existing rows ((k, v) :: rest)
      = ((sqliteSetAllLoop c now kind existing (upsertRow rows kind k (c.enc v) now) rest).1,
         (k, v) :: (sqliteSetAllLoop c now kind existing (upsertRow rows kind k (c.enc v) now) rest).2.1,
         (sqliteSetAllLoop c now kind existing (upsertRow rows kind k (c.enc v) now) rest).2.2) := by
  simp only [sqliteSetAllLoop, hex, Bool.false_eq_true, if_false]

theorem sqliteSetAllLoop_events {T : Type} (c : Codec T) (now : Nat) (kind : String)
    (existing : List String) (values : List (String × T)) :
    ∀ rows : List ((String × String) × SqlRow),
    (sqliteSetAllLoop c now kind existing rows values).2.1
      = values.filter (fun kv => !(existing.contains kv.1))
    ∧ (sqliteSetAllLoop c now kind existing rows values).2.2
      = values.filter (fun kv => existing.contains kv.1) := by
  induction values with
  | nil => intro rows; exact ⟨rfl, rfl⟩
  | cons kv rest ih =>
    intro rows
    obtain ⟨k, v⟩ := kv
    have hrest := ih (upsertRow rows kind k (c.enc v) now)
    cases hex : existing.contains k with
    | true =>
      rw [sqliteSetAllLoop_cons_pos c now kind existing rows k v rest hex]
      constructor
      · rw [List.filter_cons_of_neg (by simpa using hex)]
        exact hrest.1
      · rw [List.filter_cons_of_pos (by simpa using hex)]
        rw [hrest.2]
    | false =>
      rw [sqliteSetAllLoop_cons_neg c now kind existing rows k v rest hex]
      constructor
      · rw [List.filter_cons_of_pos (by simpa using hex)]
        rw [hrest.1]
      · rw [List.filter_cons_of_neg (by simpa using hex)]
        exact hrest.2

theorem alookup_isSome_iff {K A : Type} [DecidableEq K] (m : List (K × A)) (key : K) :
    (alookup m key).isSome = true ↔ key ∈ m.map Prod.fst := by
  induction m with
  | nil => simp [alookup]
  | cons p rest ih =>
    obtain ⟨k, a⟩ := p
    by_cases h : k = key
    · simp [alookup, h]
    · have h2 : ¬(key = k) := fun he => h he.symm
      simp [alookup, h, h2, ih]

theorem kindKeysList_contains (rows : List ((String × String) × SqlRow))
    (kind k : String) :
    (rows.filterMap (fun p => if p.1.1 = kind then some p.1.2 else none)).contains k
      = (alookup rows (kind, k)).isSome := by
  have hmem : (k ∈ rows.filterMap (fun p => if p.1.1 = kind then some p.1.2 else none))
      ↔ (kind, k) ∈ rows.map Prod.fst := by
    rw [List.mem_filterMap, List.mem_map]
    constructor
    · rintro ⟨p, hp, hif⟩
      by_cases h : p.1.1 = kind
      · rw [if_pos h] at hif
        injection hif with hb
        exact ⟨p, hp, by rw [Prod.ext_iff]; exact ⟨h, hb⟩⟩
      · rw [if_neg h] at hif
        cases hif
    · rintro ⟨p, hp, hfst⟩
      refine ⟨p, hp, ?_⟩
      have h1 : p.1.1 = kind := by rw [hfst]
      have h2 : p.1.2 = k := by rw [hfst]
      rw [if_pos h1, h2]
  cases ha : alookup rows (kind, k) with
  | none =>
    have hnm : (kind, k) ∉ rows.map Prod.fst := by
      intro hc
      have hs := (alookup_isSome_iff rows (kind, k)).mpr hc
      rw [ha] at hs
      simp at hs
    have hnc : ¬(k ∈ rows.filterMap (fun p => if p.1.1 = kind then some p.1.2 else none)) :=
      fun hx => hnm (hmem.mp hx)
    simpa using hnc
  | some r =>
    have hm : (kind, k) ∈ rows.map Prod.fst :=
      (alookup_isSome_iff rows (kind, k)).mp (by rw [ha]; rfl)
    simpa using hmem.mpr hm

theorem kindKeys_contains {T : Type} (s : SqlStore T) (kind k : String) :
    (kindKeys s kind).contains k = (getRow s kind k).isSome :=
  kindKeysList_contains s.rows kind k

theorem alookup_upsertRow_self (rows : List ((String × String) × SqlRow))
    (kind k : String) (enc : List Nat) (now : Nat) :
    alookup (upsertRow rows kind k enc now) (kind, k)
      = some (match alookup rows (kind, k) with
              | none => (⟨enc, 1, now⟩ : SqlRow)
              | some r =>
                if r.value = enc then (⟨enc, r.version, r.updatedAt⟩ : SqlRow)
                else (⟨enc, r.version + 1, now⟩ : SqlRow)) := by
  unfold upsertRow
  cases h : alookup rows (kind, k) with
  | none => simp [alookup_aset_self]
  | some r =>
    by_cases hv : r.value = enc
    · simp [hv, alookup_aset_self]
    · simp [hv, alookup_aset_self]

theorem alookup_upsertRow_ne (rows : List ((String × String) × SqlRow))
    (kind k : String) (enc : List Nat) (now : Nat) (kk : String × String)
    (h : (kind, k) ≠ kk) :
    alookup (upsertRow rows kind k enc now) kk = alookup rows kk := by
  unfold upsertRow
  cases halt : alookup rows (kind, k) with
  | none => exact alookup_aset_ne rows (kind, k) kk _ h
  | some r =>
    by_cases hv : r.value = enc
    · simp only [hv, if_true]
      exact alookup_aset_ne rows (kind, k) kk _ h
    · simp only [hv, if_false]
      exact alookup_aset_ne rows (kind, k) kk _ h

theorem sqliteSetAllLoop_fst_cons {T : Type} (c : Codec T) (now : Nat) (kind : String)
    (existing : List String) (rows : List ((String × String) × SqlRow))
    (k : String) (v : T) (rest : List (String × T)) :
    (sqliteSetAllLoop c now kind existing rows ((k, v) :: rest)).1
      = (sqliteSetAllLoop c now kind existing (upsertRow rows kind k (c.enc v) now) rest).1 := by
  cases hex : existing.contains k with
  | true => rw [sqliteSetAllLoop_cons_pos c now kind existing rows k v rest hex]
  | false => rw [sqliteSetAllLoop_cons_neg c now kind existing rows k v rest hex]

theorem sqliteSetAllLoop_rows_notmem {T : Type} (c : Codec T) (now : Nat)
    (kind : String) (existing : List String) (values : List (String × T)) :
    ∀ (rows : List ((String × String) × SqlRow)) (kk : String × String),
    (∀ kv ∈ values, (kind, kv.1) ≠ kk) →
    alookup (sqliteSetAllLoop c now kind existing rows values).1 kk = alookup rows kk := by
  induction values with
  | nil => intro rows kk _; rfl
  | cons kv rest ih =>
    intro rows kk h
    obtain ⟨k, v⟩ := kv
    have h1 : (kind, k) ≠ kk := h (k, v) (List.mem_cons_self _ _)
    have h2 : ∀ kv ∈ rest, (kind, kv.1) ≠ kk :=
      fun x hx => h x (List.mem_cons_of_mem _ hx)
    rw [sqliteSetAllLoop_fst_cons]
    rw [ih (upsertRow rows kind k (c.enc v) now) kk h2]
    exact alookup_upsertRow_ne rows kind k (c.enc v) now kk h1

theorem sqliteSetAllLoop_rows_mem {T : Type} (c : Codec T) (now : Nat)
    (kind : String) (existing : List String) (values : List (String × T)) :
    ∀ (rows : List ((String × String) × SqlRow)) (k : String) (v : T),
    (values.map Prod.fst).Nodup → (k, v) ∈ values →
    alookup (sqliteSetAllLoop c now kind existing rows values).1 (kind, k)
      = some (match alookup rows (kind, k) with
              | none => (⟨c.enc v, 1, now⟩ : SqlRow)
              | some r =>
                if r.value = c.enc v then (⟨c.enc v, r.version, r.updatedAt⟩ : SqlRow)
                else (⟨c.enc v, r.version + 1, now⟩ : SqlRow)) := by
  induction values with
  | nil => intro rows k v _ hmem; simp at hmem
  | cons kv rest ih =>
    intro rows k v hnd hmem
    obtain ⟨k1, v1⟩ := kv
    simp only [List.map_cons, List.nodup_cons] at hnd
    rcases List.mem_cons.mp hmem with hhead | htail
    · injection hhead with he1 he2
      subst he1
      subst he2
      have hrestne : ∀ kv ∈ rest, (kind, kv.1) ≠ (kind, k) := by
        intro x hx
        simp only [ne_eq, Prod.mk.injEq, true_and]
        intro he
        exact hnd.1 (List.mem_map.mpr ⟨x, hx, he⟩)
      rw [sqliteSetAllLoop_fst_cons]
      rw [sqliteSetAllLoop_rows_notmem c now kind existing rest _ _ hrestne]
      exact alookup_upsertRow_self rows kind k (c.enc v) now
    · have hk1 : k1 ≠ k := by
        intro he
        exact hnd.1 (List.mem_map.mpr ⟨(k, v), htail, by simp [he]⟩)
      have hpairne : (kind, k1) ≠ (kind, k) := by
        simp only [ne_eq, Prod.mk.injEq, true_and]
        exact hk1
      have hrow1 : alookup (upsertRow rows kind k1 (c.enc v1) now) (kind, k)
          = alookup rows (kind, k) :=
        alookup_upsertRow_ne rows kind k1 (c.enc v1) now (kind, k) hpairne
      have hrec := ih (upsertRow rows kind k1 (c.enc v1) now) k v hnd.2 htail
      rw [hrow1] at hrec
      rw [sqliteSetAllLoop_fst_cons]
      exact hrec

theorem alookup_append_of_none {K A : Type} [DecidableEq K]
    (l1 l2 : List (K × A)) (key : K) (h : alookup l1 key = none) :
    alookup (l1 ++ l2) key = alookup l2 key := by
  induction l1 with
  | nil => simp
  | cons p rest ih =>
    obtain ⟨k, a⟩ := p
    by_cases hk : k = key
    · simp [alookup, hk] at h
    · simp only [alookup, if_neg hk] at h
      simp only [List.cons_append, alookup, if_neg hk]
      exact ih h

theorem alookup_append_singleton_other {K A : Type} [DecidableEq K]
    (l : List (K × A)) (kind other : K) (x : A) (h : other ≠ kind) :
    alookup (l ++ [(kind, x)]) other = alookup l other := by
  induction l with
  | nil => simp [alookup, Ne.symm h]
  | cons p rest ih =>
    obtain ⟨k, a⟩ := p
    by_cases hk : k = other
    · simp [alookup, hk]
    · simp only [List.cons_append, alookup, if_neg hk]
      exact ih

theorem ensureKindKinds_watchers {T : Type} (s : MemStore T) (kind : String) :
    (s.ensureKindKinds kind).watchers = s.watchers := by
  unfold MemStore.ensureKindKinds
  split_ifs <;> rfl

theorem ensureKindKinds_fields {T : Type} (s : MemStore T) (kind : String) :
    (s.ensureKindKinds kind).validationFns = s.validationFns
    ∧ (s.ensureKindKinds kind).compareFn = s.compareFn
    ∧ (s.ensureKindKinds kind).closed = s.closed
    ∧ (s.ensureKindKinds kind).watcherID = s.watcherID := by
  unfold MemStore.ensureKindKinds
  split_ifs <;> exact ⟨rfl, rfl, rfl, rfl⟩

theorem ensureKind_fields {T : Type} (s : MemStore T) (kind : String) :
    (s.ensureKind kind).validationFns = s.validationFns
    ∧ (s.ensureKind kind).compareFn = s.compareFn
    ∧ (s.ensureKind kind).closed = s.closed
    ∧ (s.ensureKind kind).watcherID = s.watcherID := by
  unfold MemStore.ensureKind
  have h := ensureKindKinds_fields s kind
  split_ifs with h1
  · exact h
  · exact h

theorem ensureKindKinds_kinds_lookup {T : Type} (s : MemStore T) (kind : String) :
    (alookup (s.ensureKindKinds kind).kinds kind).getD []
      = (alookup s.kinds kind).getD [] := by
  unfold MemStore.ensureKindKinds
  split_ifs with h1
  · have hnone : alookup s.kinds kind = none := Option.isNone_iff_eq_none.mp h1
    show (alookup (s.kinds ++ [(kind, [])]) kind).getD [] = (alookup s.kinds kind).getD []
    rw [alookup_append_of_none _ _ _ hnone, hnone]
    simp [alookup]
  · rfl

theorem ensureKind_kinds_lookup {T : Type} (s : MemStore T) (kind : String) :
    (alookup (s.ensureKind kind).kinds kind).getD []
      = (alookup s.kinds kind).getD [] := by
  unfold MemStore.ensureKind
  split_ifs with h1
  · exact ensureKindKinds_kinds_lookup s kind
  · exact ensureKindKinds_kinds_lookup s kind

theorem ensureKindKinds_kinds_lookup_other {T : Type} (s : MemStore T)
    (kind other : String) (h : other ≠ kind) :
    alookup (s.ensureKindKinds kind).kinds other = alookup s.kinds other := by
  unfold MemStore.ensureKindKinds
  split_ifs with h1
  · exact alookup_append_singleton_other s.kinds kind other [] h
  · rfl

theorem ensureKind_kinds_lookup_other {T : Type} (s : MemStore T) (kind other : String)
    (h : other ≠ kind) :
    alookup (s.ensureKind kind).kinds other = alookup s.kinds other := by
  unfold MemStore.ensureKind
  split_ifs with h1
  · exact ensureKindKinds_kinds_lookup_other s kind other h
  · exact ensureKindKinds_kinds_lookup_other s kind other h

theorem ensureKind_watchers_of_some {T : Type} (s : MemStore T) (kind : String)
    (ws : List (Nat × Watcher T)) (h : alookup s.watchers kind = some ws) :
    (s.ensureKind kind).watchers = s.watchers := by
  unfold MemStore.ensureKind
  have hw : (s.ensureKindKinds kind).watchers = s.watchers := ensureKindKinds_watchers s kind
  split_ifs with h1
  · exfalso
    rw [hw, h] at h1
    simp at h1
  · exact hw

/-- A concrete codec over natural numbers used to instantiate the
durable engine in concrete scenarios: one value per singleton byte
list. -/
def natCodec : Codec Nat :=
  ⟨fun n => [n], fun l => match l with | [n] => some n | _ => none⟩

/-- A fresh in-memory store over Nat with default options. -/
def memS0 : MemStore Nat := newMemStore ⟨none, []⟩

/-- The in-memory store holding the single entry ("users", "a", 1). -/
def memS1 : MemStore Nat := (memSet memS0 "users" "a" 1).1

/-- The durable store holding the single entry ("users", "a", 1). -/
def sqlS1 : SqlStore Nat := (sqliteSet natCodec 1 newSqlStore "users" "a" 1).1

/-- An in-memory store whose kind "users" rejects every value. -/
def memValStore : MemStore Nat :=
  newMemStore ⟨none, [("users", fun _ => some (.errValidation "invalid"))]⟩

/-- C1 — code bug exhibited: on the in-memory engine with default
options, Set of the zero value on an absent key stores the entry but
reports created=false and emits no create event, because the source
compares the new value against the zero value that Go map indexing
returns for a missing key before consulting the existed flag; the
durable engine on the same input reports created=true.  This
contradicts the claim that the first set of an absent key reports
created=true and (in-memory) emits a create event. -/
theorem c1_mem_zero_value_set_misreports_created :
    (memSet memS0 "users" "a" 0).2.2 = .ok false
    ∧ (memSet memS0 "users" "a" 0).2.1 = []
    ∧ memGet (memSet memS0 "users" "a" 0).1 "users" "a" = .ok (some 0)
    ∧ (sqliteSet natCodec 1 (newSqlStore : SqlStore Nat) "users" "a" 0).2.2 = .ok true
    ∧ (sqliteSet natCodec 1 (newSqlStore : SqlStore Nat) "users" "a" 0).2.1
        = [⟨"users", "a", .create, 0⟩] := by
  exact ⟨rfl, rfl, rfl, rfl, rfl⟩

/-- C2 — counterexample: Dump does not fail with the closed error.
The in-memory Dump has no error path and never consults the closed
flag: on a closed store holding ("users","a",1) it returns the normal
rendering, identical to the rendering before Close. -/
theorem c2_counterexample_dump_ignores_close :
    (memClose memS1).1.closed = true
    ∧ memDump toString (memClose memS1).1 = "users:\n  a: 1\n"
    ∧ memDump toString (memClose memS1).1 = memDump toString memS1 := by
  exact ⟨rfl, rfl, rfl⟩

/-- C2 (amended): after Close, Get, List, Count, Keys, Values, GetAll,
Set, SetFn, SetAll, Delete and Watch all fail with the closed error in
both engines, and Close closes every previously registered watch
channel, emptying the registries; Dump, however, has no error path and
does not return the closed error: the in-memory Dump ignores the
closed flag entirely and the durable Dump returns the text of the
underlying driver error. -/
theorem c2_closed_store_operations {T : Type} (c : Codec T) [Inhabited T]
    (sh : T → String) (s : MemStore T) (q : SqlStore T) (sm : MemStore T)
    (qm : SqlStore T) (kind key : String) (v : T) (values : List (String × T))
    (fn : T → Except StoreErr T) (filters : List (String → T → Bool))
    (cfg : WatchCfg) (now : Nat)
    (hs : s.closed = true) (hq : q.closed = true) (hk : ¬(kind = ""))
    (hsm : sm.closed = false) (hqm : qm.closed = false) :
    memGet s kind key = .error .errClosed
    ∧ memList s kind filters = .error .errClosed
    ∧ memCount s kind = .error .errClosed
    ∧ memKeys s kind = .error .errClosed
    ∧ memValues s kind = .error .errClosed
    ∧ memGetAll s = .error .errClosed
    ∧ (memSet s kind key v).2.2 = .error .errClosed
    ∧ (memSetFn s kind key fn).2.2 = .error .errClosed
    ∧ (memSetAll s kind values).2.2 = .error .errClosed
    ∧ (memDelete s kind key).2.2 = .error .errClosed
    ∧ (memWatch s kind cfg).2 = .error .errClosed
    ∧ memDump sh s = memDump sh { s with closed := false }
    ∧ sqliteGet c q kind key = .error .errClosed
    ∧ sqliteList c q kind filters = .error .errClosed
    ∧ sqliteCount q kind = .error .errClosed
    ∧ sqliteKeys q kind = .error .errClosed
    ∧ sqliteValues c q kind = .error .errClosed
    ∧ sqliteGetAll c q = .error .errClosed
    ∧ (sqliteSet c now q kind key v).2.2 = .error .errClosed
    ∧ (sqliteSetFn c now q kind key fn).2.2 = .error .errClosed
    ∧ (sqliteSetAll c now q kind values).2.2 = .error .errClosed
    ∧ (sqliteDelete c q kind key).2.2 = .error .errClosed
    ∧ (sqliteWatch c q kind cfg).2 = .error .errClosed
    ∧ sqliteDump q = "sql: database is closed"
    ∧ (memClose sm).2 = (sm.watchers.map (fun p => p.2.map (fun w => (p.1, w.1)))).flatten
    ∧ (memClose sm).1.closed = true
    ∧ (memClose sm).1.watchers = sm.watchers.map (fun p => (p.1, []))
    ∧ (sqliteClose qm).2 = (qm.subs.map (fun p => p.2.map (fun w => (p.1, w.1)))).flatten
    ∧ (sqliteClose qm).1.closed = true
    ∧ (sqliteClose qm).1.subs = [] := by
  refine ⟨?_, ?_, ?_, ?_, ?_, ?_, ?_, ?_, ?_, ?_, ?_, ?_, ?_, ?_, ?_, ?_, ?_, ?_,
    ?_, ?_, ?_, ?_, ?_, ?_, ?_, ?_, ?_, ?_, ?_, ?_⟩
  · simp [memGet, hs]
  · simp [memList, hs]
  · simp [memCount, hs]
  · simp [memKeys, hs]
  · simp [memValues, hs]
  · simp [memGetAll, hs]
  · simp [memSet, hs]
  · simp [memSetFn, hs]
  · simp [memSetAll, hs]
  · simp [memDelete, hs]
  · simp [memWatch, hk, hs]
  · rfl
  · simp [sqliteGet, hq]
  · simp [sqliteList, hq]
  · simp [sqliteCount, hq]
  · simp [sqliteKeys, hq]
  · simp [sqliteValues, hq]
  · simp [sqliteGetAll, hq]
  · simp [sqliteSet, hq]
  · simp [sqliteSetFn, hq]
  · simp [sqliteSetAll, hq]
  · simp [sqliteDelete, hq]
  · simp [sqliteWatch, hk, hq]
  · simp [sqliteDump, hq]
  · simp [memClose, hsm]
  · simp [memClose, hsm]
  · simp [memClose, hsm]
  · simp [sqliteClose, hqm]
  · simp [sqliteClose, hqm]
  · simp [sqliteClose, hqm]

/-- C2 — witness: the closed-store theorem applied at closed concrete
stores of both engines. -/
theorem c2_closed_store_operations_witness :
    memGet (memClose memS1).1 "users" "a" = .error .errClosed :=
  (c2_closed_store_operations natCodec toString (memClose memS1).1
    (sqliteClose sqlS1).1 memS1 sqlS1 "users" "a" 1 [("a", 1)]
    (fun v => .ok v) [] ⟨false, none, 0⟩ 0 rfl rfl (by decide) rfl rfl).1

/-- C3 — counterexample: a subscription that sets the event-type
filter to the singleton create nevertheless receives the initial
replay in both engines, refuting the claim that any event-type filter
suppresses replay delivery. -/
theorem c3_counterexample_replay_with_filter :
    (memWatch memS1 "users" ⟨true, some [.create], 0⟩).2
      = .ok (1, [⟨"users", "a", .create, 1⟩])
    ∧ (sqliteWatch natCodec sqlS1 "users" ⟨true, some [.create], 0⟩).2
      = .ok (1, [⟨"users", "a", .create, 1⟩]) := by
  exact ⟨rfl, rfl⟩

/-- C3 (amended): in both engines, initial replay synthesizes one
create event per current entry of the kind exactly when the replay
option is set and the event-type filter is absent or contains the
create type; a subscription whose filter omits the create type, or
that does not request replay, receives no replay events. -/
theorem c3_initial_replay_condition {T : Type} (c : Codec T) (s : MemStore T)
    (q : SqlStore T) (kind : String) (cfg cfg2 : WatchCfg)
    (entries : List (String × T))
    (hk : ¬(kind = "")) (hs : s.closed = false) (hq : q.closed = false)
    (hinit : cfg.initial = true)
    (hcre : cfg.eventTypes = none
            ∨ ∃ l, cfg.eventTypes = some l ∧ EventType.create ∈ l)
    (hn : cfg2.initial = false
          ∨ ∃ l, cfg2.eventTypes = some l ∧ EventType.create ∉ l)
    (hentries : kindEntries c q kind = some entries) :
    (memWatch s kind cfg).2
      = .ok (s.watcherID + 1,
          ((alookup s.kinds kind).getD []).map
            (fun kv => (⟨kind, kv.1, .create, kv.2⟩ : Event T)))
    ∧ (memWatch s kind cfg2).2 = .ok (s.watcherID + 1, [])
    ∧ (sqliteWatch c q kind cfg).2
      = .ok (q.subID + 1,
          entries.map (fun kv => (⟨kind, kv.1, .create, kv.2⟩ : Event T)))
    ∧ (sqliteWatch c q kind cfg2).2 = .ok (q.subID + 1, []) := by
  have hacc : acceptsInitial cfg.eventTypes = true := by
    rcases hcre with h | ⟨l, hl, hmem⟩
    · simp [acceptsInitial, h]
    · simp [acceptsInitial, hl, hmem]
  have hnacc : ∀ x : Bool, (cfg2.initial && x && acceptsInitial cfg2.eventTypes) = false := by
    intro x
    rcases hn with h | ⟨l, hl, hnm⟩
    · simp [h]
    · simp [acceptsInitial, hl, hnm]
  have hid := (ensureKind_fields s kind).2.2.2
  have hkl := ensureKind_kinds_lookup s kind
  refine ⟨?_, ?_, ?_, ?_⟩
  · simp only [memWatch, if_neg hk, hs, Bool.false_eq_true, if_false, hinit, hacc,
      Bool.true_and, Bool.and_true, eq_self_iff_true, if_true]
    rw [hid]
    cases hemp : ((alookup (s.ensureKind kind).kinds kind).getD []).isEmpty with
    | true =>
      have hm : (alookup s.kinds kind).getD [] = [] := by
        rw [← hkl]
        exact List.isEmpty_iff.mp hemp
      simp only [hemp, Bool.not_true, Bool.false_eq_true, if_false, hm, List.map_nil]
    | false =>
      simp only [hemp, Bool.not_false, eq_self_iff_true, if_true, hkl]
  · simp only [memWatch, if_neg hk, hs, Bool.false_eq_true, if_false]
    rw [hid]
    simp only [hnacc, Bool.false_eq_true, if_false]
  · simp only [sqliteWatch, if_neg hk, hq, Bool.false_eq_true, if_false, hinit, hacc,
      Bool.true_and, Bool.and_true, eq_self_iff_true, if_true, hentries]
  · simp only [sqliteWatch, if_neg hk, hq, Bool.false_eq_true, if_false]
    have hnacc2 : (cfg2.initial && acceptsInitial cfg2.eventTypes) = false := by
      have := hnacc true
      rcases hn with h | ⟨l, hl, hnm⟩
      · simp [h]
      · simp [acceptsInitial, hl, hnm]
    simp only [hnacc2, Bool.false_eq_true, if_false]

/-- C3 — witness: the replay-condition theorem at concrete stores,
with an absent filter on the delivering subscription and a
delete-only filter on the silent one. -/
theorem c3_initial_replay_condition_witness :
    (memWatch memS1 "users" ⟨true, none, 0⟩).2
      = .ok (memS1.watcherID + 1,
          ((alookup memS1.kinds "users").getD []).map
            (fun kv => (⟨"users", kv.1, .create, kv.2⟩ : Event Nat))) :=
  (c3_initial_replay_condition natCodec memS1 sqlS1 "users" ⟨true, none, 0⟩
    ⟨true, some [.delete], 0⟩ [("a", 1)] (by decide) rfl rfl rfl
    (Or.inl rfl) (Or.inr ⟨[.delete], rfl, by decide⟩) rfl).1

theorem sqliteSet_insert {T : Type} (c : Codec T) (now : Nat) (s : SqlStore T)
    (kind key : String) (v : T) (ho : s.closed = false)
    (ha : getRow s kind key = none) :
    sqliteSet c now s kind key v
      = (sqlPublish { s with rows := aset s.rows (kind, key) ⟨c.enc v, 1, now⟩ } kind
           [⟨kind, key, .create, v⟩],
         [⟨kind, key, .create, v⟩], .ok true) := by
  simp only [sqliteSet, ho, Bool.false_eq_true, if_false]
  rw [show alookup s.rows (kind, key) = none from ha]

theorem sqliteSet_update {T : Type} (c : Codec T) (now : Nat) (s : SqlStore T)
    (kind key : String) (v : T) (r : SqlRow) (ho : s.closed = false)
    (hp : getRow s kind key = some r) (hne : ¬(r.value = c.enc v)) :
    sqliteSet c now s kind key v
      = (sqlPublish { s with rows := aset s.rows (kind, key) ⟨c.enc v, r.version + 1, now⟩ } kind
           [⟨kind, key, .update, v⟩],
         [⟨kind, key, .update, v⟩], .ok false) := by
  simp only [sqliteSet, ho, Bool.false_eq_true, if_false]
  rw [show alookup s.rows (kind, key) = some r from hp]
  simp only [if_neg hne]

theorem sqliteSet_noop {T : Type} (c : Codec T) (now : Nat) (s : SqlStore T)
    (kind key : String) (v : T) (r : SqlRow) (ho : s.closed = false)
    (hp : getRow s kind key = some r) (heq : r.value = c.enc v) :
    sqliteSet c now s kind key v = (s, [], .ok false) := by
  simp only [sqliteSet, ho, Bool.false_eq_true, if_false]
  rw [show alookup s.rows (kind, key) = some r from hp]
  simp only [if_pos heq]

theorem sqliteSetFn_missing {T : Type} (c : Codec T) (now : Nat) (s : SqlStore T)
    (kind key : String) (fn : T → Except StoreErr T) (ho : s.closed = false)
    (ha : getRow s kind key = none) :
    sqliteSetFn c now s kind key fn = (s, [], .error .errKeyNotFound) := by
  simp only [sqliteSetFn, ho, Bool.false_eq_true, if_false]
  rw [show alookup s.rows (kind, key) = none from ha]

theorem sqliteSetFn_noop {T : Type} (c : Codec T) (now : Nat) (s : SqlStore T)
    (kind key : String) (fn : T → Except StoreErr T) (r : SqlRow) (cur nv : T)
    (ho : s.closed = false) (hp : getRow s kind key = some r)
    (hdec : c.dec r.value = some cur) (hfn : fn cur = .ok nv)
    (heq : r.value = c.enc nv) :
    sqliteSetFn c now s kind key fn = (s, [], .ok false) := by
  simp only [sqliteSetFn, ho, Bool.false_eq_true, if_false]
  rw [show alookup s.rows (kind, key) = some r from hp]
  simp only [hdec, hfn, if_pos heq]

theorem sqliteSetFn_update {T : Type} (c : Codec T) (now : Nat) (s : SqlStore T)
    (kind key : String) (fn : T → Except StoreErr T) (r : SqlRow) (cur nv : T)
    (ho : s.closed = false) (hp : getRow s kind key = some r)
    (hdec : c.dec r.value = some cur) (hfn : fn cur = .ok nv)
    (hne : ¬(r.value = c.enc nv)) :
    sqliteSetFn c now s kind key fn
      = (sqlPublish { s with rows := aset s.rows (kind, key) ⟨c.enc nv, r.version + 1, now⟩ } kind
           [⟨kind, key, .update, nv⟩],
         [⟨kind, key, .update, nv⟩], .ok false) := by
  simp only [sqliteSetFn, ho, Bool.false_eq_true, if_false]
  rw [show alookup s.rows (kind, key) = some r from hp]
  simp only [hdec, hfn, if_neg hne]

theorem sqliteSetAll_rows {T : Type} (c : Codec T) (now : Nat) (s : SqlStore T)
    (kind : String) (values : List (String × T)) (ho : s.closed = false) :
    (sqliteSetAll c now s kind values).1.rows
      = (sqliteSetAllLoop c now kind (kindKeys s kind) s.rows values).1 := by
  simp only [sqliteSetAll, ho, Bool.false_eq_true, if_false]
  rfl

theorem sqliteSetAll_events_split {T : Type} (c : Codec T) (now : Nat) (s : SqlStore T)
    (kind : String) (values : List (String × T)) (ho : s.closed = false) :
    (sqliteSetAll c now s kind values).2.1
      = (values.filter (fun kv => !((getRow s kind kv.1).isSome))).map
          (fun kv => (⟨kind, kv.1, .create, kv.2⟩ : Event T))
        ++ (values.filter (fun kv => (getRow s kind kv.1).isSome)).map
          (fun kv => (⟨kind, kv.1, .update, kv.2⟩ : Event T))
    ∧ (sqliteSetAll c now s kind values).2.2 = .ok () := by
  have hev := sqliteSetAllLoop_events c now kind (kindKeys s kind) values s.rows
  constructor
  · simp only [sqliteSetAll, ho, Bool.false_eq_true, if_false]
    rw [hev.1, hev.2]
    have hc1 : values.filter (fun kv => !((kindKeys s kind).contains kv.1))
        = values.filter (fun kv => !((getRow s kind kv.1).isSome)) := by
      apply List.filter_congr
      intro x _
      rw [kindKeys_contains]
    have hc2 : values.filter (fun kv => (kindKeys s kind).contains kv.1)
        = values.filter (fun kv => (getRow s kind kv.1).isSome) := by
      apply List.filter_congr
      intro x _
      rw [kindKeys_contains]
    rw [hc1, hc2]
  · simp only [sqliteSetAll, ho, Bool.false_eq_true, if_false]

/-- C4: durable-engine version invariant.  Version is 1 on insert;
a byte-changing Set, SetFn, or SetAll row bumps it by exactly 1 and
refreshes the timestamp; a write whose serialized bytes equal the
stored bytes leaves the row (version and timestamp included) and, for
Set and SetFn, the whole store untouched with no event; and across
Set, SetFn and SetAll the version of a surviving row never
decreases. -/
theorem c4_sqlite_version_monotonic {T : Type} (c : Codec T) (now : Nat)
    (s1 : SqlStore T) (kind1 key1 : String) (v1 : T)
    (s2 : SqlStore T) (kind2 key2 : String) (v2 : T) (r2 : SqlRow)
    (s3 : SqlStore T) (kind3 key3 : String) (v3 : T) (r3 : SqlRow)
    (s4 : SqlStore T) (kind4 key4 : String) (fn4 : T → Except StoreErr T) (cur4 nv4 : T) (r4 : SqlRow)
    (s5 : SqlStore T) (kind5 key5 : String) (fn5 : T → Except StoreErr T) (cur5 nv5 : T) (r5 : SqlRow)
    (s6 : SqlStore T) (kind6 : String) (values6 : List (String × T)) (k6 : String) (v6 : T)
    (s7 : SqlStore T) (kind7 : String) (values7 : List (String × T)) (k7 : String) (v7 : T) (r7 : SqlRow)
    (s8 : SqlStore T) (kind8 : String) (values8 : List (String × T)) (k8 : String) (v8 : T) (r8 : SqlRow)
    (s9 : SqlStore T) (kind9 key9 : String) (v9 : T) (r9 r9' : SqlRow)
    (h1o : s1.closed = false) (h1a : getRow s1 kind1 key1 = none)
    (h2o : s2.closed = false) (h2p : getRow s2 kind2 key2 = some r2)
    (h2ne : ¬(r2.value = c.enc v2))
    (h3o : s3.closed = false) (h3p : getRow s3 kind3 key3 = some r3)
    (h3eq : r3.value = c.enc v3)
    (h4o : s4.closed = false) (h4p : getRow s4 kind4 key4 = some r4)
    (h4dec : c.dec r4.value = some cur4) (h4fn : fn4 cur4 = .ok nv4)
    (h4ne : ¬(r4.value = c.enc nv4))
    (h5o : s5.closed = false) (h5p : getRow s5 kind5 key5 = some r5)
    (h5dec : c.dec r5.value = some cur5) (h5fn : fn5 cur5 = .ok nv5)
    (h5eq : r5.value = c.enc nv5)
    (h6o : s6.closed = false) (h6nd : (values6.map Prod.fst).Nodup)
    (h6mem : (k6, v6) ∈ values6) (h6a : getRow s6 kind6 k6 = none)
    (h7o : s7.closed = false) (h7nd : (values7.map Prod.fst).Nodup)
    (h7mem : (k7, v7) ∈ values7) (h7p : getRow s7 kind7 k7 = some r7)
    (h7ne : ¬(r7.value = c.enc v7))
    (h8o : s8.closed = false) (h8nd : (values8.map Prod.fst).Nodup)
    (h8mem : (k8, v8) ∈ values8) (h8p : getRow s8 kind8 k8 = some r8)
    (h8eq : r8.value = c.enc v8)
    (h9o : s9.closed = false) (h9p : getRow s9 kind9 key9 = some r9)
    (h9p' : getRow (sqliteSet c now s9 kind9 key9 v9).1 kind9 key9 = some r9') :
    getRow (sqliteSet c now s1 kind1 key1 v1).1 kind1 key1 = some ⟨c.enc v1, 1, now⟩
    ∧ getRow (sqliteSet c now s2 kind2 key2 v2).1 kind2 key2
        = some ⟨c.enc v2, r2.version + 1, now⟩
    ∧ (sqliteSet c now s3 kind3 key3 v3).1 = s3
    ∧ (sqliteSet c now s3 kind3 key3 v3).2.1 = []
    ∧ getRow (sqliteSetFn c now s4 kind4 key4 fn4).1 kind4 key4
        = some ⟨c.enc nv4, r4.version + 1, now⟩
    ∧ (sqliteSetFn c now s5 kind5 key5 fn5).1 = s5
    ∧ (sqliteSetFn c now s5 kind5 key5 fn5).2.1 = []
    ∧ getRow (sqliteSetAll c now s6 kind6 values6).1 kind6 k6 = some ⟨c.enc v6, 1, now⟩
    ∧ getRow (sqliteSetAll c now s7 kind7 values7).1 kind7 k7
        = some ⟨c.enc v7, r7.version + 1, now⟩
    ∧ getRow (sqliteSetAll c now s8 kind8 values8).1 kind8 k8 = some r8
    ∧ r9.version ≤ r9'.version := by
  refine ⟨?_, ?_, ?_, ?_, ?_, ?_, ?_, ?_, ?_, ?_, ?_⟩
  · rw [sqliteSet_insert c now s1 kind1 key1 v1 h1o h1a]
    exact alookup_aset_self _ _ _
  · rw [sqliteSet_update c now s2 kind2 key2 v2 r2 h2o h2p h2ne]
    exact alookup_aset_self _ _ _
  · rw [sqliteSet_noop c now s3 kind3 key3 v3 r3 h3o h3p h3eq]
  · rw [sqliteSet_noop c now s3 kind3 key3 v3 r3 h3o h3p h3eq]
  · rw [sqliteSetFn_update c now s4 kind4 key4 fn4 r4 cur4 nv4 h4o h4p h4dec h4fn h4ne]
    exact alookup_aset_self _ _ _
  · rw [sqliteSetFn_noop c now s5 kind5 key5 fn5 r5 cur5 nv5 h5o h5p h5dec h5fn h5eq]
  · rw [sqliteSetFn_noop c now s5 kind5 key5 fn5 r5 cur5 nv5 h5o h5p h5dec h5fn h5eq]
  · show alookup (sqliteSetAll c now s6 kind6 values6).1.rows (kind6, k6) = _
    rw [sqliteSetAll_rows c now s6 kind6 values6 h6o]
    rw [sqliteSetAllLoop_rows_mem c now kind6 (kindKeys s6 kind6) values6 s6.rows k6 v6 h6nd h6mem]
    rw [show alookup s6.rows (kind6, k6) = none from h6a]
  · show alookup (sqliteSetAll c now s7 kind7 values7).1.rows (kind7, k7) = _
    rw [sqliteSetAll_rows c now s7 kind7 values7 h7o]
    rw [sqliteSetAllLoop_rows_mem c now kind7 (kindKeys s7 kind7) values7 s7.rows k7 v7 h7nd h7mem]
    rw [show alookup s7.rows (kind7, k7) = some r7 from h7p]
    simp only [if_neg h7ne]
  · show alookup (sqliteSetAll c now s8 kind8 values8).1.rows (kind8, k8) = _
    rw [sqliteSetAll_rows c now s8 kind8 values8 h8o]
    rw [sqliteSetAllLoop_rows_mem c now kind8 (kindKeys s8 kind8) values8 s8.rows k8 v8 h8nd h8mem]
    rw [show alookup s8.rows (kind8, k8) = some r8 from h8p]
    simp only [if_pos h8eq]
    rw [← h8eq]
  · by_cases heq : r9.value = c.enc v9
    · rw [sqliteSet_noop c now s9 kind9 key9 v9 r9 h9o h9p heq] at h9p'
      rw [h9p] at h9p'
      injection h9p' with he
      rw [he]
    · rw [sqliteSet_update c now s9 kind9 key9 v9 r9 h9o h9p heq] at h9p'
      have : alookup (aset s9.rows (kind9, key9) ⟨c.enc v9, r9.version + 1, now⟩)
          (kind9, key9) = some ⟨c.enc v9, r9.version + 1, now⟩ := alookup_aset_self _ _ _
      rw [show getRow (sqlPublish { s9 with rows := aset s9.rows (kind9, key9) ⟨c.enc v9, r9.version + 1, now⟩ } kind9
          [⟨kind9, key9, .update, v9⟩]) kind9 key9
          = alookup (aset s9.rows (kind9, key9) ⟨c.enc v9, r9.version + 1, now⟩) (kind9, key9) from rfl] at h9p'
      rw [this] at h9p'
      injection h9p' with he
      rw [← he]
      exact Nat.le_succ _

/-- C4 — witness: the version-invariant theorem applied at concrete
stores covering insert, byte-changing update, byte-identical no-op,
the SetFn and SetAll variants, and non-decrease. -/
theorem c4_sqlite_version_monotonic_witness :
    getRow (sqliteSet natCodec 7 newSqlStore "users" "a" 1).1 "users" "a"
      = some ⟨[1], 1, 7⟩ :=
  (c4_sqlite_version_monotonic natCodec 7 newSqlStore "users" "a" 1
    sqlS1 "users" "a" 2 ⟨[1], 1, 1⟩ sqlS1 "users" "a" 1 ⟨[1], 1, 1⟩
    sqlS1 "users" "a" (fun n => .ok (n + 1)) 1 2 ⟨[1], 1, 1⟩
    sqlS1 "users" "a" (fun n => .ok n) 1 1 ⟨[1], 1, 1⟩
    newSqlStore "users" [("a", 1)] "a" 1
    sqlS1 "users" [("a", 2)] "a" 2 ⟨[1], 1, 1⟩
    sqlS1 "users" [("a", 1)] "a" 1 ⟨[1], 1, 1⟩
    sqlS1 "users" "a" 2 ⟨[1], 1, 1⟩ ⟨[2], 2, 7⟩
    rfl rfl
    rfl rfl (by decide)
    rfl rfl rfl
    rfl rfl rfl rfl (by decide)
    rfl rfl rfl rfl rfl
    rfl (by decide) (by decide) rfl
    rfl (by decide) (by decide) rfl (by decide)
    rfl (by decide) (by decide) rfl rfl
    rfl rfl rfl).1

theorem memSetFn_missing {T : Type} (s : MemStore T) (kind key : String)
    (fn : T → Except StoreErr T) (ho : s.closed = false)
    (ha : alookup ((alookup s.kinds kind).getD []) key = none) :
    memSetFn s kind key fn = (s.ensureKind kind, [], .error .errKeyNotFound) := by
  simp only [memSetFn, ho, Bool.false_eq_true, if_false]
  rw [show alookup ((alookup (s.ensureKind kind).kinds kind).getD []) key = none from by
    rw [ensureKind_kinds_lookup]
    exact ha]

/-- C5 — counterexample: in the in-memory engine, SetFn on a missing
key of a previously unseen kind returns the not-found error and emits
no event, but the store state is observably changed: the kind becomes
registered and appears (empty) in GetAll, because ensureKind runs
before the existence check. -/
theorem c5_counterexample_setfn_registers_kind :
    (memSetFn memS0 "users" "a" (fun v => Except.ok v)).2.2 = .error .errKeyNotFound
    ∧ (memSetFn memS0 "users" "a" (fun v => Except.ok v)).2.1 = []
    ∧ memGetAll (memSetFn memS0 "users" "a" (fun v => Except.ok v)).1
        = .ok [("users", [])]
    ∧ memGetAll memS0 = .ok [] := by
  exact ⟨rfl, rfl, rfl, rfl⟩

/-- C5 (amended): SetFn on a missing key fails with the not-found
error and emits no event in both engines; the durable engine leaves
the state exactly unchanged, while the in-memory engine's only state
change is registering the kind (visible as an empty kind in GetAll),
its entries untouched.  For the durable engine, a transform whose
output serializes to the current bytes commits as a no-op with no
version bump and no event, and differing bytes update the row, bump
version and timestamp, and emit one update event after commit. -/
theorem c5_setfn_missing_and_noop {T : Type} (c : Codec T) (now : Nat)
    (sM : MemStore T) (kindM keyM : String) (fnM : T → Except StoreErr T)
    (sA : SqlStore T) (kindA keyA : String) (fnA : T → Except StoreErr T)
    (sB : SqlStore T) (kindB keyB : String) (fnB : T → Except StoreErr T)
    (rB : SqlRow) (curB nvB : T)
    (sC : SqlStore T) (kindC keyC : String) (fnC : T → Except StoreErr T)
    (rC : SqlRow) (curC nvC : T)
    (hMo : sM.closed = false)
    (hMa : alookup ((alookup sM.kinds kindM).getD []) keyM = none)
    (hAo : sA.closed = false) (hAa : getRow sA kindA keyA = none)
    (hBo : sB.closed = false) (hBp : getRow sB kindB keyB = some rB)
    (hBdec : c.dec rB.value = some curB) (hBfn : fnB curB = .ok nvB)
    (hBeq : rB.value = c.enc nvB)
    (hCo : sC.closed = false) (hCp : getRow sC kindC keyC = some rC)
    (hCdec : c.dec rC.value = some curC) (hCfn : fnC curC = .ok nvC)
    (hCne : ¬(rC.value = c.enc nvC)) :
    memSetFn sM kindM keyM fnM = (sM.ensureKind kindM, [], .error .errKeyNotFound)
    ∧ sqliteSetFn c now sA kindA keyA fnA = (sA, [], .error .errKeyNotFound)
    ∧ sqliteSetFn c now sB kindB keyB fnB = (sB, [], .ok false)
    ∧ sqliteSetFn c now sC kindC keyC fnC
        = (sqlPublish { sC with
              rows := aset sC.rows (kindC, keyC) ⟨c.enc nvC, rC.version + 1, now⟩ } kindC
             [⟨kindC, keyC, .update, nvC⟩],
           [⟨kindC, keyC, .update, nvC⟩], .ok false) := by
  refine ⟨?_, ?_, ?_, ?_⟩
  · exact memSetFn_missing sM kindM keyM fnM hMo hMa
  · exact sqliteSetFn_missing c now sA kindA keyA fnA hAo hAa
  · exact sqliteSetFn_noop c now sB kindB keyB fnB rB curB nvB hBo hBp hBdec hBfn hBeq
  · exact sqliteSetFn_update c now sC kindC keyC fnC rC curC nvC hCo hCp hCdec hCfn hCne

/-- C5 — witness: the SetFn theorem applied at a fresh in-memory
store, a fresh durable store, and the one-entry durable store under an
identity transform (no-op) and a successor transform (update). -/
theorem c5_setfn_missing_and_noop_witness :
    memSetFn memS0 "users" "b" (fun v => Except.ok v)
      = (memS0.ensureKind "users", [], .error .errKeyNotFound) :=
  (c5_setfn_missing_and_noop natCodec 7 memS0 "users" "b" (fun v => Except.ok v)
    newSqlStore "users" "a" (fun v => Except.ok v)
    sqlS1 "users" "a" (fun v => Except.ok v) ⟨[1], 1, 1⟩ 1 1
    sqlS1 "users" "a" (fun n => Except.ok (n + 1)) ⟨[1], 1, 1⟩ 1 2
    rfl rfl rfl rfl rfl rfl rfl rfl rfl rfl rfl rfl rfl (by decide)).1

/-- The boolean component of a write result: the returned flag on
success, false on error. -/
def okBool : Except StoreErr Bool → Bool
  | .ok b => b
  | .error _ => false

/-- C10: in both engines the boolean result declared as changed in
the Writer interface is the literal false on every successful SetFn
call, including calls that stored a different value and emitted an
update event. -/
theorem c10_setfn_bool_always_false {T : Type} (c : Codec T) (now : Nat)
    (s : MemStore T) (q : SqlStore T) (kind key : String)
    (fn : T → Except StoreErr T) :
    okBool (memSetFn s kind key fn).2.2 = false
    ∧ okBool (sqliteSetFn c now q kind key fn).2.2 = false := by
  constructor
  · simp only [memSetFn]
    split
    · rfl
    · split
      · rfl
      · split
        · rfl
        · rfl
  · simp only [sqliteSetFn]
    split
    · rfl
    · split
      · rfl
      · split
        · rfl
        · split
          · rfl
          · split
            · rfl
            · rfl

theorem memDelete_found_eq {T : Type} [Inhabited T] (s : MemStore T)
    (kind key : String) (prev : T) (ho : s.closed = false)
    (hp : alookup ((alookup s.kinds kind).getD []) key = some prev) :
    memDelete s kind key
      = (publishList { s.ensureKind kind with
            kinds := aset (s.ensureKind kind).kinds kind
              (aerase ((alookup (s.ensureKind kind).kinds kind).getD []) key) } kind
           [⟨kind, key, .delete, prev⟩],
         [⟨kind, key, .delete, prev⟩], .ok (true, prev)) := by
  simp only [memDelete, ho, Bool.false_eq_true, if_false]
  rw [show alookup ((alookup (s.ensureKind kind).kinds kind).getD []) key = some prev from by
    rw [ensureKind_kinds_lookup]
    exact hp]

theorem memDelete_absent_eq {T : Type} [Inhabited T] (s : MemStore T)
    (kind key : String) (ho : s.closed = false)
    (ha : alookup ((alookup s.kinds kind).getD []) key = none) :
    memDelete s kind key = (s.ensureKind kind, [], .ok (false, default)) := by
  simp only [memDelete, ho, Bool.false_eq_true, if_false]
  rw [show alookup ((alookup (s.ensureKind kind).kinds kind).getD []) key = none from by
    rw [ensureKind_kinds_lookup]
    exact ha]

theorem sqliteDelete_found_eq {T : Type} [Inhabited T] (c : Codec T) (s : SqlStore T)
    (kind key : String) (r : SqlRow) (prev : T) (ho : s.closed = false)
    (hp : getRow s kind key = some r) (hdec : c.dec r.value = some prev) :
    sqliteDelete c s kind key
      = (sqlPublish { s with rows := aerase s.rows (kind, key) } kind
           [⟨kind, key, .delete, prev⟩],
         [⟨kind, key, .delete, prev⟩], .ok (true, prev)) := by
  simp only [sqliteDelete, ho, Bool.false_eq_true, if_false]
  rw [show alookup s.rows (kind, key) = some r from hp]
  simp only [hdec]

theorem sqliteDelete_absent_eq {T : Type} [Inhabited T] (c : Codec T) (s : SqlStore T)
    (kind key : String) (ho : s.closed = false)
    (ha : getRow s kind key = none) :
    sqliteDelete c s kind key = (s, [], .ok (false, default)) := by
  simp only [sqliteDelete, ho, Bool.false_eq_true, if_false]
  rw [show alookup s.rows (kind, key) = none from ha]

/-- C7: events carry the new value for create/update and the previous
value for delete; in both engines Delete of an existing key returns
existed=true with the prior value, removes the entry, and emits
exactly one delete event carrying that prior value, while Delete of an
absent key returns existed=false with no error and emits no event; and
every event emitted by Set carries the written value as its object. -/
theorem c7_delete_and_event_objects {T : Type} [Inhabited T] [DecidableEq T]
    (c : Codec T) (now : Nat)
    (sD : MemStore T) (kindD keyD : String) (prevD : T)
    (sE : MemStore T) (kindE keyE : String)
    (sF : SqlStore T) (kindF keyF : String) (rF : SqlRow) (prevF : T)
    (sG : SqlStore T) (kindG keyG : String)
    (sH : MemStore T) (kindH keyH : String) (vH : T)
    (sI : SqlStore T) (kindI keyI : String) (vI : T)
    (hDo : sD.closed = false)
    (hDp : alookup ((alookup sD.kinds kindD).getD []) keyD = some prevD)
    (hDnd : ((((alookup sD.kinds kindD).getD []) : List (String × T)).map Prod.fst).Nodup)
    (hEo : sE.closed = false)
    (hEa : alookup ((alookup sE.kinds kindE).getD []) keyE = none)
    (hFo : sF.closed = false) (hFp : getRow sF kindF keyF = some rF)
    (hFdec : c.dec rF.value = some prevF)
    (hFnd : (sF.rows.map Prod.fst).Nodup)
    (hGo : sG.closed = false) (hGa : getRow sG kindG keyG = none) :
    (memDelete sD kindD keyD).2.2 = .ok (true, prevD)
    ∧ (memDelete sD kindD keyD).2.1 = [⟨kindD, keyD, .delete, prevD⟩]
    ∧ alookup ((alookup (memDelete sD kindD keyD).1.kinds kindD).getD []) keyD = none
    ∧ (memDelete sE kindE keyE).2.2 = .ok (false, default)
    ∧ (memDelete sE kindE keyE).2.1 = []
    ∧ (sqliteDelete c sF kindF keyF).2.2 = .ok (true, prevF)
    ∧ (sqliteDelete c sF kindF keyF).2.1 = [⟨kindF, keyF, .delete, prevF⟩]
    ∧ getRow (sqliteDelete c sF kindF keyF).1 kindF keyF = none
    ∧ sqliteDelete c sG kindG keyG = (sG, [], .ok (false, default))
    ∧ (memSet sH kindH keyH vH).2.1.all (fun ev => decide (ev.object = vH)) = true
    ∧ (sqliteSet c now sI kindI keyI vI).2.1.all (fun ev => decide (ev.object = vI)) = true := by
  refine ⟨?_, ?_, ?_, ?_, ?_, ?_, ?_, ?_, ?_, ?_, ?_⟩
  · rw [memDelete_found_eq sD kindD keyD prevD hDo hDp]
  · rw [memDelete_found_eq sD kindD keyD prevD hDo hDp]
  · rw [memDelete_found_eq sD kindD keyD prevD hDo hDp]
    show alookup ((alookup (aset (sD.ensureKind kindD).kinds kindD
      (aerase ((alookup (sD.ensureKind kindD).kinds kindD).getD []) keyD)) kindD).getD []) keyD = none
    rw [alookup_aset_self]
    simp only [Option.getD_some]
    have hm : ((alookup (sD.ensureKind kindD).kinds kindD).getD [] : List (String × T))
        = (alookup sD.kinds kindD).getD [] := ensureKind_kinds_lookup sD kindD
    rw [hm]
    exact alookup_aerase_self_of_nodup _ _ hDnd
  · rw [memDelete_absent_eq sE kindE keyE hEo hEa]
  · rw [memDelete_absent_eq sE kindE keyE hEo hEa]
  · rw [sqliteDelete_found_eq c sF kindF keyF rF prevF hFo hFp hFdec]
  · rw [sqliteDelete_found_eq c sF kindF keyF rF prevF hFo hFp hFdec]
  · rw [sqliteDelete_found_eq c sF kindF keyF rF prevF hFo hFp hFdec]
    show alookup (aerase sF.rows (kindF, keyF)) (kindF, keyF) = none
    exact alookup_aerase_self_of_nodup _ _ hFnd
  · exact sqliteDelete_absent_eq c sG kindG keyG hGo hGa
  · simp only [memSet]
    split
    · rfl
    · split
      · split
        · rfl
        · simp only [memSetCore]
          split
          · rfl
          · simp
      · simp only [memSetCore]
        split
        · rfl
        · simp
  · simp only [sqliteSet]
    split
    · rfl
    · split
      · simp
      · split
        · rfl
        · simp

/-- C7 — witness: the delete/object theorem applied at the one-entry
stores of both engines and a fresh store for the absent case. -/
theorem c7_delete_and_event_objects_witness :
    (memDelete memS1 "users" "a").2.2 = .ok (true, 1) :=
  (c7_delete_and_event_objects natCodec 7 memS1 "users" "a" 1 memS0 "users" "b"
    sqlS1 "users" "a" ⟨[1], 1, 1⟩ 1 newSqlStore "users" "a"
    memS0 "users" "x" 5 newSqlStore "users" "x" 5
    rfl rfl (by decide) rfl rfl rfl rfl rfl (by decide) rfl rfl).1

/-- C8 — counterexample: on a fresh in-memory store whose kind
"users" rejects every value, a rejected Set returns the validation
error, creates no entry and emits no event, yet the observable store
state has changed: GetAll afterwards reports the kind "users" (empty),
which it did not report before, because ensureKind runs before
validation. -/
theorem c8_counterexample_validation_registers_kind :
    (memSet memValStore "users" "a" 1).2.2 = .error (.errValidation "invalid")
    ∧ (memSet memValStore "users" "a" 1).2.1 = []
    ∧ memGetAll (memSet memValStore "users" "a" 1).1 = .ok [("users", [])]
    ∧ memGetAll memValStore = .ok [] := by
  exact ⟨rfl, rfl, rfl, rfl⟩

/-- C8 (amended): in the in-memory engine a per-kind validation
rejection of Set, or of any value supplied to SetAll, returns the
validation error, creates or modifies no entry, and emits no event;
SetAll validates every supplied value before writing any key, so a
rejection anywhere in the batch leaves all keys untouched.  The one
observable state change is that the kind becomes registered (an empty
kind appears in GetAll and Dump) because ensureKind runs before
validation; entries themselves are unchanged. -/
theorem c8_validation_rejection {T : Type} [Inhabited T] (s : MemStore T)
    (kind key : String) (v : T) (fn : T → Option StoreErr) (e e2 : StoreErr)
    (values : List (String × T))
    (ho : s.closed = false)
    (hfn : alookup s.validationFns kind = some fn)
    (hrej : fn v = some e)
    (hvals : validateVals fn values = some e2) :
    memSet s kind key v = (s.ensureKind kind, [], .error e)
    ∧ memSetAll s kind values = (s.ensureKind kind, [], .error e2) := by
  have hfn2 : alookup (s.ensureKind kind).validationFns kind = some fn := by
    rw [(ensureKind_fields s kind).1]
    exact hfn
  constructor
  · simp only [memSet, ho, Bool.false_eq_true, if_false, hfn2, hrej]
  · simp only [memSetAll, ho, Bool.false_eq_true, if_false, hfn2, hvals]

/-- C8 — witness: the validation theorem applied at the rejecting
concrete store. -/
theorem c8_validation_rejection_witness :
    memSet memValStore "users" "a" 1
      = (memValStore.ensureKind "users", [], .error (.errValidation "invalid")) :=
  (c8_validation_rejection memValStore "users" "a" 1
    (fun _ => some (.errValidation "invalid")) (.errValidation "invalid")
    (.errValidation "invalid") [("a", 1), ("b", 2)] rfl rfl rfl rfl).1

theorem alookup_map_nil {K A B : Type} [DecidableEq K] (m : List (K × A)) (key : K) :
    alookup (m.map (fun p => (p.1, ([] : List B)))) key
      = (alookup m key).map (fun _ => ([] : List B)) := by
  induction m with
  | nil => simp
  | cons p rest ih =>
    obtain ⟨k, a⟩ := p
    by_cases hk : k = key
    · simp [alookup, hk]
    · simp [alookup, hk, ih]

/-- The one-entry in-memory store with one registered watcher (id 1,
no filter, default buffer). -/
def memW : MemStore Nat := (memWatch memS1 "users" ⟨false, none, 0⟩).1

/-- The one-entry durable store with one registered watcher (id 1, no
filter, default buffer). -/
def sqlW : SqlStore Nat := (sqliteWatch natCodec sqlS1 "users" ⟨false, none, 0⟩).1

/-- C9: watcher cancellation and store closure are idempotent and
never fault.  A second cancel call, a cancel after Close, and a second
Close all leave the state unchanged and report no channel close, so
the channel-double-close fault is unreachable; the registry-bucket
no-duplicate hypotheses reflect that watcher ids are generated
uniquely by the id counter. -/
theorem c9_cancel_close_idempotent {T : Type} (s : MemStore T) (q : SqlStore T)
    (kind : String) (id : Nat) (s2 : MemStore T) (q2 : SqlStore T)
    (hbucket : ∀ ws, alookup s.watchers kind = some ws → (ws.map Prod.fst).Nodup)
    (hqsubs : (q.subs.map Prod.fst).Nodup)
    (hqbucket : ∀ ws, alookup q.subs kind = some ws → (ws.map Prod.fst).Nodup)
    (hs2 : s2.closed = false) (hq2 : q2.closed = false) :
    memCancel (memCancel s kind id).1 kind id = ((memCancel s kind id).1, false)
    ∧ memCancel (memClose s2).1 kind id = ((memClose s2).1, false)
    ∧ memClose (memClose s2).1 = ((memClose s2).1, [])
    ∧ sqliteCancel (sqliteCancel q kind id).1 kind id = ((sqliteCancel q kind id).1, false)
    ∧ sqliteCancel (sqliteClose q2).1 kind id = ((sqliteClose q2).1, false)
    ∧ sqliteClose (sqliteClose q2).1 = ((sqliteClose q2).1, []) := by
  refine ⟨?_, ?_, ?_, ?_, ?_, ?_⟩
  · cases hw : alookup s.watchers kind with
    | none =>
      have h1 : memCancel s kind id = (s, false) := by
        simp only [memCancel, hw]
      rw [h1]
      exact h1
    | some ws =>
      cases hid : alookup ws id with
      | none =>
        have h1 : memCancel s kind id = (s, false) := by
          simp only [memCancel, hw, hid]
        rw [h1]
        exact h1
      | some w =>
        have h1 : memCancel s kind id
            = ({ s with watchers := aset s.watchers kind (aerase ws id) }, true) := by
          simp only [memCancel, hw, hid]
        rw [h1]
        have hw2 : alookup (aset s.watchers kind (aerase ws id)) kind
            = some (aerase ws id) := alookup_aset_self _ _ _
        have hid2 : alookup (aerase ws id) id = none :=
          alookup_aerase_self_of_nodup _ _ (hbucket ws hw)
        simp only [memCancel, hw2, hid2]
  · have hcl : (memClose s2).1.watchers = s2.watchers.map (fun p => (p.1, [])) := by
      simp only [memClose, hs2, Bool.false_eq_true, if_false]
    cases hw2 : alookup s2.watchers kind with
    | none =>
      have hlook : alookup (memClose s2).1.watchers kind = none := by
        rw [hcl, alookup_map_nil, hw2]
        rfl
      simp only [memCancel, hlook]
    | some ws =>
      have hlook : alookup (memClose s2).1.watchers kind
          = some ([] : List (Nat × Watcher T)) := by
        rw [hcl, alookup_map_nil, hw2]
        rfl
      simp only [memCancel, hlook, alookup]
  · simp only [memClose, hs2, Bool.false_eq_true, if_false, eq_self_iff_true, if_true]
  · cases hw : alookup q.subs kind with
    | none =>
      have h1 : sqliteCancel q kind id = (q, false) := by
        simp only [sqliteCancel, hw]
      rw [h1]
      exact h1
    | some ws =>
      cases hid : alookup ws id with
      | none =>
        have h1 : sqliteCancel q kind id = (q, false) := by
          simp only [sqliteCancel, hw, hid]
        rw [h1]
        exact h1
      | some w =>
        cases hemp : (aerase ws id).isEmpty with
        | true =>
          have h1 : sqliteCancel q kind id
              = ({ q with subs := aerase q.subs kind }, true) := by
            simp only [sqliteCancel, hw, hid, hemp, eq_self_iff_true, if_true]
          rw [h1]
          have hlook : alookup (aerase q.subs kind) kind = none :=
            alookup_aerase_self_of_nodup _ _ hqsubs
          simp only [sqliteCancel, hlook]
        | false =>
          have h1 : sqliteCancel q kind id
              = ({ q with subs := aset q.subs kind (aerase ws id) }, true) := by
            simp only [sqliteCancel, hw, hid, hemp, Bool.false_eq_true, if_false]
          rw [h1]
          have hlook : alookup (aset q.subs kind (aerase ws id)) kind
              = some (aerase ws id) := alookup_aset_self _ _ _
          have hid2 : alookup (aerase ws id) id = none :=
            alookup_aerase_self_of_nodup _ _ (hqbucket ws hw)
          simp only [sqliteCancel, hlook, hid2]
  · have hsub : (sqliteClose q2).1.subs = [] := by
      simp only [sqliteClose, hq2, Bool.false_eq_true, if_false]
    have hlook : alookup (sqliteClose q2).1.subs kind = none := by
      rw [hsub]
      rfl
    simp only [sqliteCancel, hlook]
  · simp only [sqliteClose, hq2, Bool.false_eq_true, if_false, eq_self_iff_true, if_true]

/-- C9 — witness: the idempotence theorem applied at the concrete
watcher-holding stores of both engines. -/
theorem c9_cancel_close_idempotent_witness :
    memCancel (memCancel memW "users" 1).1 "users" 1
      = ((memCancel memW "users" 1).1, false) :=
  (c9_cancel_close_idempotent memW sqlW "users" 1 memW sqlW
    (fun ws h => by
      injection h with he
      rw [← he]
      decide)
    (by decide)
    (fun ws h => by
      injection h with he
      rw [← he]
      decide)
    rfl rfl).1

theorem isNone_eq_not_isSome {A : Type} (o : Option A) : o.isNone = !o.isSome := by
  cases o <;> rfl

theorem filter_split_length {α : Type} (l : List α) (p : α → Bool) :
    (l.filter (fun a => !(p a))).length + (l.filter p).length = l.length := by
  induction l with
  | nil => rfl
  | cons a rest ih =>
    cases hp : p a with
    | true =>
      rw [List.filter_cons_of_neg (by simp [hp]), List.filter_cons_of_pos (by simp [hp])]
      simp only [List.length_cons]
      omega
    | false =>
      rw [List.filter_cons_of_pos (by simp [hp]), List.filter_cons_of_neg (by simp [hp])]
      simp only [List.length_cons]
      omega

theorem memSetAll_main {T : Type} (s : MemStore T) (kind : String)
    (values : List (String × T)) (ho : s.closed = false)
    (hval : alookup s.validationFns kind = none) :
    memSetAll s kind values
      = (publishList { s.ensureKind kind with
            kinds := aset (s.ensureKind kind).kinds kind
              (memSetAllLoop ((alookup (s.ensureKind kind).kinds kind).getD []) values).1 } kind
           ((memSetAllLoop ((alookup (s.ensureKind kind).kinds kind).getD []) values).2.1.map
              (fun kv => (⟨kind, kv.1, .create, kv.2⟩ : Event T))
            ++ (memSetAllLoop ((alookup (s.ensureKind kind).kinds kind).getD []) values).2.2.map
              (fun kv => (⟨kind, kv.1, .update, kv.2⟩ : Event T))),
         (memSetAllLoop ((alookup (s.ensureKind kind).kinds kind).getD []) values).2.1.map
            (fun kv => (⟨kind, kv.1, .create, kv.2⟩ : Event T))
          ++ (memSetAllLoop ((alookup (s.ensureKind kind).kinds kind).getD []) values).2.2.map
            (fun kv => (⟨kind, kv.1, .update, kv.2⟩ : Event T)),
         .ok ()) := by
  have hval2 : alookup (s.ensureKind kind).validationFns kind = none := by
    rw [(ensureKind_fields s kind).1]
    exact hval
  simp only [memSetAll, ho, Bool.false_eq_true, if_false, hval2]

theorem sqliteSetAll_main {T : Type} (c : Codec T) (now : Nat) (q : SqlStore T)
    (kind : String) (values : List (String × T)) (ho : q.closed = false) :
    sqliteSetAll c now q kind values
      = (sqlPublish { q with
            rows := (sqliteSetAllLoop c now kind (kindKeys q kind) q.rows values).1 } kind
           ((sqliteSetAllLoop c now kind (kindKeys q kind) q.rows values).2.1.map
              (fun kv => (⟨kind, kv.1, .create, kv.2⟩ : Event T))
            ++ (sqliteSetAllLoop c now kind (kindKeys q kind) q.rows values).2.2.map
              (fun kv => (⟨kind, kv.1, .update, kv.2⟩ : Event T))),
         (sqliteSetAllLoop c now kind (kindKeys q kind) q.rows values).2.1.map
            (fun kv => (⟨kind, kv.1, .create, kv.2⟩ : Event T))
          ++ (sqliteSetAllLoop c now kind (kindKeys q kind) q.rows values).2.2.map
            (fun kv => (⟨kind, kv.1, .update, kv.2⟩ : Event T)),
         .ok ()) := by
  simp only [sqliteSetAll, ho, Bool.false_eq_true, if_false]

/-- C6: for both engines, SetAll reports success and emits exactly one
create event per supplied key absent beforehand and exactly one update
event per supplied key present beforehand — with no per-key no-op
suppression — and a watcher of the kind with no event-type filter and
sufficient remaining queue capacity receives exactly these events
appended to its queue after the write is applied. -/
theorem c6_setall_events_delivery {T : Type} (c : Codec T) (now : Nat)
    (s : MemStore T) (kind : String) (values : List (String × T))
    (ws : List (Nat × Watcher T)) (id : Nat) (w : Watcher T)
    (q : SqlStore T) (kind2 : String) (values2 : List (String × T))
    (ws2 : List (Nat × Watcher T)) (id2 : Nat) (w2 : Watcher T)
    (ho : s.closed = false) (hval : alookup s.validationFns kind = none)
    (hnd : (values.map Prod.fst).Nodup)
    (hw : alookup s.watchers kind = some ws) (hid : alookup ws id = some w)
    (hfil : w.eventTypes = none) (hcap : w.ch.length + values.length ≤ w.cap)
    (hqo : q.closed = false)
    (hw2 : alookup q.subs kind2 = some ws2) (hid2 : alookup ws2 id2 = some w2)
    (hfil2 : w2.eventTypes = none)
    (hcap2 : w2.ch.length + values2.length ≤ w2.cap) :
    (memSetAll s kind values).2.2 = .ok ()
    ∧ (memSetAll s kind values).2.1
      = (values.filter (fun kv =>
            (alookup ((alookup s.kinds kind).getD []) kv.1).isNone)).map
          (fun kv => (⟨kind, kv.1, .create, kv.2⟩ : Event T))
        ++ (values.filter (fun kv =>
            (alookup ((alookup s.kinds kind).getD []) kv.1).isSome)).map
          (fun kv => (⟨kind, kv.1, .update, kv.2⟩ : Event T))
    ∧ alookup ((alookup (memSetAll s kind values).1.watchers kind).getD []) id
      = some { w with ch := w.ch ++ (memSetAll s kind values).2.1 }
    ∧ (sqliteSetAll c now q kind2 values2).2.2 = .ok ()
    ∧ (sqliteSetAll c now q kind2 values2).2.1
      = (values2.filter (fun kv => !((getRow q kind2 kv.1).isSome))).map
          (fun kv => (⟨kind2, kv.1, .create, kv.2⟩ : Event T))
        ++ (values2.filter (fun kv => (getRow q kind2 kv.1).isSome)).map
          (fun kv => (⟨kind2, kv.1, .update, kv.2⟩ : Event T))
    ∧ alookup ((alookup (sqliteSetAll c now q kind2 values2).1.subs kind2).getD []) id2
      = some { w2 with ch := w2.ch ++ (sqliteSetAll c now q kind2 values2).2.1 } := by
  have hmain := memSetAll_main s kind values ho hval
  have hm1 : ((alookup (s.ensureKind kind).kinds kind).getD [] : List (String × T))
      = (alookup s.kinds kind).getD [] := ensureKind_kinds_lookup s kind
  have hloop := memSetAllLoop_events values
    ((alookup (s.ensureKind kind).kinds kind).getD []) hnd
  have hevsloop :
      (memSetAllLoop ((alookup (s.ensureKind kind).kinds kind).getD []) values).2.1.map
          (fun kv => (⟨kind, kv.1, .create, kv.2⟩ : Event T))
        ++ (memSetAllLoop ((alookup (s.ensureKind kind).kinds kind).getD []) values).2.2.map
          (fun kv => (⟨kind, kv.1, .update, kv.2⟩ : Event T))
      = (values.filter (fun kv =>
            (alookup ((alookup s.kinds kind).getD []) kv.1).isNone)).map
          (fun kv => (⟨kind, kv.1, .create, kv.2⟩ : Event T))
        ++ (values.filter (fun kv =>
            (alookup ((alookup s.kinds kind).getD []) kv.1).isSome)).map
          (fun kv => (⟨kind, kv.1, .update, kv.2⟩ : Event T)) := by
    rw [hloop.1, hloop.2]
    simp only [hm1]
  have hlenloop :
      ((memSetAllLoop ((alookup (s.ensureKind kind).kinds kind).getD []) values).2.1.map
          (fun kv => (⟨kind, kv.1, .create, kv.2⟩ : Event T))
        ++ (memSetAllLoop ((alookup (s.ensureKind kind).kinds kind).getD []) values).2.2.map
          (fun kv => (⟨kind, kv.1, .update, kv.2⟩ : Event T))).length
      = values.length := by
    rw [hevsloop]
    simp only [List.length_append, List.length_map, isNone_eq_not_isSome]
    exact filter_split_length values _
  have hmain2 := sqliteSetAll_main c now q kind2 values2 hqo
  have hloop2 := sqliteSetAllLoop_events c now kind2 (kindKeys q kind2) values2 q.rows
  have hevs2loop :
      (sqliteSetAllLoop c now kind2 (kindKeys q kind2) q.rows values2).2.1.map
          (fun kv => (⟨kind2, kv.1, .create, kv.2⟩ : Event T))
        ++ (sqliteSetAllLoop c now kind2 (kindKeys q kind2) q.rows values2).2.2.map
          (fun kv => (⟨kind2, kv.1, .update, kv.2⟩ : Event T))
      = (values2.filter (fun kv => !((getRow q kind2 kv.1).isSome))).map
          (fun kv => (⟨kind2, kv.1, .create, kv.2⟩ : Event T))
        ++ (values2.filter (fun kv => (getRow q kind2 kv.1).isSome)).map
          (fun kv => (⟨kind2, kv.1, .update, kv.2⟩ : Event T)) := by
    rw [hloop2.1, hloop2.2]
    simp only [kindKeys_contains]
  have hlen2loop :
      ((sqliteSetAllLoop c now kind2 (kindKeys q kind2) q.rows values2).2.1.map
          (fun kv => (⟨kind2, kv.1, .create, kv.2⟩ : Event T))
        ++ (sqliteSetAllLoop c now kind2 (kindKeys q kind2) q.rows values2).2.2.map
          (fun kv => (⟨kind2, kv.1, .update, kv.2⟩ : Event T))).length
      = values2.length := by
    rw [hevs2loop]
    simp only [List.length_append, List.length_map]
    exact filter_split_length values2 _
  refine ⟨?_, ?_, ?_, ?_, ?_, ?_⟩
  · rw [hmain]
  · rw [hmain]
    exact hevsloop
  · rw [hmain]
    have hw2m : alookup ({ s.ensureKind kind with
        kinds := aset (s.ensureKind kind).kinds kind
          (memSetAllLoop ((alookup (s.ensureKind kind).kinds kind).getD []) values).1 } : MemStore T).watchers kind
        = some ws := by
      show alookup (s.ensureKind kind).watchers kind = some ws
      rw [ensureKind_watchers_of_some s kind ws hw]
      exact hw
    simp only [publishList]
    rw [alookup_amodify, hw2m]
    show alookup (deliverList ws _) id = _
    refine deliverList_lookup _ ws id w hid hfil ?_
    rw [hlenloop]
    exact hcap
  · rw [hmain2]
  · rw [hmain2]
    exact hevs2loop
  · rw [hmain2]
    have hw2q : alookup ({ q with
        rows := (sqliteSetAllLoop c now kind2 (kindKeys q kind2) q.rows values2).1 } : SqlStore T).subs kind2
        = some ws2 := by
      show alookup q.subs kind2 = some ws2
      exact hw2
    simp only [sqlPublish]
    rw [alookup_amodify, hw2q]
    show alookup (deliverList ws2 _) id2 = _
    refine deliverList_lookup _ ws2 id2 w2 hid2 hfil2 ?_
    rw [hlen2loop]
    exact hcap2

/-- C6 — witness: the SetAll theorem applied at the watcher-holding
stores of both engines with a batch containing one pre-existing and
one fresh key. -/
theorem c6_setall_events_delivery_witness :
    (memSetAll memW "users" [("a", 2), ("b", 3)]).2.2 = .ok () :=
  (c6_setall_events_delivery natCodec 9 memW "users" [("a", 2), ("b", 3)]
    [(1, ⟨[], 128, none⟩)] 1 ⟨[], 128, none⟩
    sqlW "users" [("a", 2), ("b", 3)] [(1, ⟨[], 128, none⟩)] 1 ⟨[], 128, none⟩
    rfl rfl (by decide) rfl rfl rfl (by decide)
    rfl rfl rfl rfl (by decide)).1

end Zestor
